import Mathlib

/-!
# Session middleware (package `session`): a shallow embedding

The development follows `session.go`:

* `Value` stands for the Go values of type `interface{}` that are used as
  session keys, session values and user ids: comparable basic values, a
  value that is not equal to itself (a floating-point NaN), and values of an
  unhashable dynamic type (a slice), on which the map operations of Go panic.
* `GoMap` is the `map[interface{}]interface{}` of a session; the field
  `Session.d` is `none` for the Go `nil` map.  A map operation yields `none`
  when it panics.
* Methods with a pointer receiver return the receiver after the call, also
  when the call panics, together with whether it panicked.
* The calls `config.Store.Set(...)` made by a request are recorded, in order,
  as a list of `SetCall`s; the cookie handed to `http.SetCookie` and the
  `Set-Cookie` header that `net/http` makes of it are recorded in the outcome
  of the request.
* The local variable `sess` of the request handler lives at a fresh address
  of the heap of sessions; a downstream handler reaches a session only
  through the pointer it finds in the context of the request it is handed.
-/

namespace session

/-! ## Values and maps -/

/-- Go values of type `interface{}`: the nil interface, comparable basic values, a float64 NaN
(comparable, but not equal to itself), and a slice (a value of an unhashable dynamic type).
Other comparable values (floats other than NaN, pointers, structs of comparable fields) behave
as the basic values do; other unhashable values (maps, funcs) behave as the slice does. -/
inductive Value where
  | nil : Value
  | bool (b : Bool) : Value
  | int (i : Int) : Value
  | str (s : String) : Value
  | nan : Value
  | slice (elems : List Int) : Value
  deriving DecidableEq, Repr

/-- Whether the Go runtime can hash the value as a map key; hashing a value of an unhashable
dynamic type panics. -/
def Value.hashable : Value → Bool
  | Value.slice _ => false
  | _ => true

/-- Go `a == b` on hashable interface values: a NaN is equal to nothing, not even to itself. -/
def Value.goEq (a b : Value) : Bool :=
  decide (a = b) && decide (a ≠ Value.nan)

/-- A byte slice; every element is meant to be below 256. -/
abbrev Bytes := List Nat

/-- The entries of a non-nil Go `map[interface{}]interface{}`. -/
abbrev GoMap := List (Value × Value)

/-- The value stored under a hashable `key`, or the zero value `nil`. -/
def GoMap.lookup (m : GoMap) (key : Value) : Value :=
  match m.find? (fun e => Value.goEq e.1 key) with
  | some e => e.2
  | none => Value.nil

/-- The map without the entries whose key is equal to the hashable `key`. -/
def GoMap.remove (m : GoMap) (key : Value) : GoMap :=
  m.filter (fun e => !Value.goEq e.1 key)

/-- Go `m[key]` on a non-nil map: the value stored under `key`, or the zero value `nil`;
`none` is the run-time panic on an unhashable key. -/
def GoMap.index (m : GoMap) (key : Value) : Option Value :=
  if key.hashable then some (GoMap.lookup m key) else none

/-- Go `delete(m, key)` on a non-nil map; `none` is the run-time panic on an unhashable key. -/
def GoMap.delete (m : GoMap) (key : Value) : Option GoMap :=
  if key.hashable then some (GoMap.remove m key) else none

/-- Go `m[key] = value` on a non-nil map; `none` is the run-time panic on an unhashable key. -/
def GoMap.assign (m : GoMap) (key value : Value) : Option GoMap :=
  if key.hashable then some ((key, value) :: GoMap.remove m key) else none

/-- Whether the map has an entry whose key is equal to `key`. -/
def GoMap.hasKey (m : GoMap) (key : Value) : Bool :=
  m.any (fun e => Value.goEq e.1 key)

/-! ## The session entity (`type Session struct`) -/

/-- The struct `Session`; `d = none` is the nil map, `userID = Value.nil` the nil interface. -/
structure Session where
  id : String
  d : Option GoMap
  isNew : Bool
  modified : Bool
  userID : Value
  deriving DecidableEq, Repr

/-- The zero value, as declared by `var sess Session`. -/
def Session.zero : Session :=
  { id := "", d := none, isNew := false, modified := false, userID := Value.nil }

/-- Method `func (sess *Session) Get(key interface{}) interface{}`: the result (`none` when
the call panics) and the receiver. -/
def Session.Get (sess : Session) (key : Value) : Option Value × Session :=
  match sess.d with
  | none => (some Value.nil, sess)
  | some m => (GoMap.index m key, sess)

/-- Method `func (sess *Session) Set(key, value interface{})`: the receiver after the call, and
whether the call panicked. -/
def Session.Set (sess : Session) (key value : Value) : Session × Bool :=
  -- if sess.d == nil { sess.d = make(map[interface{}]interface{}) }
  let m : GoMap :=
    match sess.d with
    | none => []
    | some m => m
  -- if !sess.modified { sess.modified = true }
  let modified : Bool := if !sess.modified then true else sess.modified
  -- sess.d[key] = value
  match GoMap.assign m key value with
  | some m2 => ({ sess with d := some m2, modified := modified }, false)
  | none => ({ sess with d := some m, modified := modified }, true)

/-- Method `func (sess *Session) Del(key interface{})`: the receiver after the call, and
whether the call panicked. -/
def Session.Del (sess : Session) (key : Value) : Session × Bool :=
  match sess.d with
  | none => (sess, false)
  | some m =>
    -- if !sess.modified { sess.modified = true }
    let modified : Bool := if !sess.modified then true else sess.modified
    -- delete(sess.d, key)
    match GoMap.delete m key with
    | some m2 => ({ sess with d := some m2, modified := modified }, false)
    | none => ({ sess with modified := modified }, true)

/-- Method `func (sess *Session) SetUserID(userID interface{})`. -/
def Session.SetUserID (sess : Session) (userID : Value) : Session :=
  { sess with userID := userID }

/-! ## Collaborators: store, codec, random source, base64 -/

/-- The method `Get(id) ([]byte, error)` of the configured store; the error is `none` for Go `nil`. -/
structure Store where
  Get : String → Bytes × Option String

/-- One call `config.Store.Set(id, userID, b, ttl)`, with `ttl` a `time.Duration` in nanoseconds. -/
structure SetCall where
  id : String
  userID : Value
  b : Bytes
  ttl : Int
  deriving DecidableEq, Repr

/-- The `encoding/gob` codec on session maps.  `Encode d` is the content written to the buffer by
`gob.NewEncoder(buf).Encode(&d)` and its error; `Decode b m` is the map left behind by
`gob.NewDecoder(bytes.NewReader(b)).Decode(&m)` on the non-nil map `m`, and its error. -/
structure Gob where
  Encode : Option GoMap → Bytes × Option String
  Decode : Bytes → GoMap → GoMap × Option String

/-- What a request draws from outside the program: the gob codec, the bytes of `crypto/rand`,
and the domain check `validCookieDomain` of `net/http`. -/
structure Env where
  gob : Gob
  rand : Nat → Nat
  validCookieDomain : String → Bool

/-- The slice `b` after `b := make([]byte, n); rand.Read(b)`. -/
def randomBytes (env : Env) (n : Nat) : Bytes :=
  (List.range n).map (fun i => env.rand i % 256)

/-- The alphabet of `base64.URLEncoding`. -/
def encodeURL : List Char :=
  "ABCDEFGHIJKLMNOPQRSTUVWXYZabcdefghijklmnopqrstuvwxyz0123456789-_".toList

/-- The character of a six-bit group. -/
def encodeURLChar (n : Nat) : Char :=
  encodeURL.getD (n % 64) 'A'

/-- The characters of `base64.URLEncoding.EncodeToString(b)`, padded with `=`. -/
def encodeURLChars : Bytes → List Char
  | [] => []
  | [a] => [encodeURLChar (a / 4), encodeURLChar ((a % 4) * 16), '=', '=']
  | [a, b] =>
    [encodeURLChar (a / 4), encodeURLChar ((a % 4) * 16 + b / 16),
     encodeURLChar ((b % 16) * 4), '=']
  | a :: b :: c :: rest =>
    encodeURLChar (a / 4) :: encodeURLChar ((a % 4) * 16 + b / 16) ::
      encodeURLChar ((b % 16) * 4 + c / 64) :: encodeURLChar (c % 64) :: encodeURLChars rest

/-- The call `base64.URLEncoding.EncodeToString(b)`. -/
def EncodeToString (b : Bytes) : String :=
  String.mk (encodeURLChars b)

/-- Method `func (sess *Session) encode() ([]byte, error)`. -/
def Session.encode (gob : Gob) (sess : Session) : Bytes × Option String :=
  match gob.Encode sess.d with
  | (_, some err) => ([], some err)
  | (buf, none) => (buf, none)

/-- Method `func (sess *Session) decode(b []byte)`: the decoder's error is dropped. -/
def Session.decode (gob : Gob) (sess : Session) (b : Bytes) : Session :=
  -- sess.d = make(map[interface{}]interface{}); err := ...Decode(&sess.d)
  { sess with d := some (gob.Decode b []).1 }

/-! ## Configuration, request, context -/

/-- Modelled from the spec: the cookie security policy, whose declaration is not among the
sources; the middleware names `MustSecure` (always) and `PreferSecure` (when the transport is
encrypted), the remaining policy is never. -/
inductive Secure where
  | NoSecure : Secure
  | PreferSecure : Secure
  | MustSecure : Secure
  deriving DecidableEq, Repr

/-- Modelled from the spec: the struct `Config`, whose declaration is not among the sources, with
the fields the middleware reads.  `Store = none` is the nil interface; `MaxAge` is a
`time.Duration` in nanoseconds. -/
structure Config where
  Store : Option Store
  Entropy : Int
  Name : String
  MaxAge : Int
  Domain : String
  Path : String
  HTTPOnly : Bool
  Secure : Secure

/-- The constant `time.Second`, in nanoseconds. -/
def Second : Int := 1000000000

/-- The fields of `http.Cookie` that the middleware fills in. -/
structure Cookie where
  Name : String
  Domain : String
  Path : String
  HttpOnly : Bool
  Value : String
  MaxAge : Int
  Secure : Bool
  deriving DecidableEq, Repr

/-- Go `len(s)` of a string: its length in bytes. -/
def len (s : String) : Nat :=
  s.utf8ByteSize

/-- The attributes of the `Set-Cookie` header that `net/http` writes for a cookie; an attribute
that is not written is `none`. -/
structure SetCookieHeader where
  Name : String
  Value : String
  Path : Option String
  Domain : Option String
  MaxAge : Option Int
  HttpOnly : Bool
  Secure : Bool
  deriving DecidableEq, Repr

/-- The token characters of `net/http`: letters, digits and the punctuation marks that may
occur in a token (given by their character codes). -/
def isTokenChar (c : Char) : Bool :=
  (48 ≤ c.toNat && c.toNat ≤ 57) || (65 ≤ c.toNat && c.toNat ≤ 90) ||
  (97 ≤ c.toNat && c.toNat ≤ 122) ||
  [33, 35, 36, 37, 38, 39, 42, 43, 45, 46, 94, 95, 96, 124, 126].contains c.toNat

/-- The check `isCookieNameValid` of `net/http`: a non-empty token. -/
def isCookieNameValid (raw : String) : Bool :=
  decide (raw ≠ "") && raw.toList.all isTokenChar

/-- The check `validCookieValueByte` of `net/http`: printable ASCII other than the double
quote, the semicolon and the backslash. -/
def validCookieValueByte (c : Char) : Bool :=
  32 ≤ c.toNat && c.toNat < 127 && c.toNat != 34 && c.toNat != 59 && c.toNat != 92

/-- The function `sanitizeCookieValue` of `net/http`: invalid bytes are dropped, and a value
with a space or a comma is put in double quotes. -/
def sanitizeCookieValue (v : String) : String :=
  let kept : List Char := v.toList.filter validCookieValueByte
  if kept.length = 0 then String.mk kept
  else if kept.any (fun c => c.toNat == 32 || c.toNat == 44) then
    String.mk (Char.ofNat 34 :: kept ++ [Char.ofNat 34])
  else String.mk kept

/-- The function `sanitizeCookiePath` of `net/http`: printable ASCII other than the semicolon
is kept. -/
def sanitizeCookiePath (v : String) : String :=
  String.mk (v.toList.filter (fun c => 32 ≤ c.toNat && c.toNat < 127 && c.toNat != 59))

/-- The `Domain` attribute written by `net/http`: none for an empty or invalid domain, and a
leading dot is dropped. -/
def domainAttribute (env : Env) (domain : String) : Option String :=
  if len domain > 0 then
    if env.validCookieDomain domain then
      match domain.toList with
      | '.' :: rest => some (String.mk rest)
      | _ => some domain
    else none
  else none

/-- The `Max-Age` attribute written by `net/http`: the seconds when positive, `0` when
negative, none when zero. -/
def maxAgeAttribute (maxAge : Int) : Option Int :=
  if maxAge > 0 then some maxAge
  else if maxAge < 0 then some 0
  else none

/-- The call `http.SetCookie(w, cookie)`: the `Set-Cookie` headers it adds to the response;
none when the name of the cookie is not valid. -/
def SetCookie (env : Env) (cookie : Cookie) : List SetCookieHeader :=
  if isCookieNameValid cookie.Name then
    [{ Name := cookie.Name
       Value := sanitizeCookieValue cookie.Value
       Path := if len cookie.Path > 0 then some (sanitizeCookiePath cookie.Path) else none
       Domain := domainAttribute env cookie.Domain
       MaxAge := maxAgeAttribute cookie.MaxAge
       HttpOnly := cookie.HttpOnly
       Secure := cookie.Secure }]
  else []

/-- A pointer `*Session`: `none` is nil, `some a` the session at address `a`. -/
abbrev SessionPtr := Option Nat

/-- Keys of a `context.Context`: the package constant `sessionKey`, or a key of another type. -/
inductive CtxKey where
  | sessionKey : CtxKey
  | other (n : Nat) : CtxKey
  deriving DecidableEq, Repr

/-- Values of a `context.Context`: a `*Session`, or a value of another type. -/
inductive CtxVal where
  | session (p : SessionPtr) : CtxVal
  | other (v : Value) : CtxVal
  deriving DecidableEq, Repr

/-- A `context.Context`, innermost `WithValue` first. -/
abbrev Context := List (CtxKey × CtxVal)

/-- Function `func Get(ctx context.Context) *Session`. -/
def Get (ctx : Context) : SessionPtr :=
  match ctx.find? (fun e => decide (e.1 = CtxKey.sessionKey)) with
  | some (_, CtxVal.session p) => p
  | _ => none

/-- Function `func Set(ctx context.Context, s *Session) context.Context`. -/
def Set (ctx : Context) (s : SessionPtr) : Context :=
  (CtxKey.sessionKey, CtxVal.session s) :: ctx

/-- An `*http.Request`: its cookies as (name, value) in header order, whether the transport is
encrypted, and its context. -/
structure Request where
  cookies : List (String × String)
  tls : Bool
  ctx : Context
  deriving DecidableEq, Repr

/-- The call `r.Cookie(name)`: the first cookie of that name, `none` for `http.ErrNoCookie`. -/
def Request.Cookie (r : Request) (name : String) : Option (String × String) :=
  r.cookies.find? (fun c => decide (c.1 = name))

/-- Modelled from the spec: the helper `isTLS`, which is not among the sources: whether the
request arrived over an encrypted transport. -/
def isTLS (r : Request) : Bool :=
  r.tls

/-! ## The downstream handler -/

/-- The sessions that exist during a request, by address. -/
abbrev Heap := List Session

/-- A method call made on a `*Session`. -/
inductive SessOp where
  | Get (key : Value) : SessOp
  | Set (key value : Value) : SessOp
  | Del (key : Value) : SessOp
  | SetUserID (userID : Value) : SessOp
  deriving DecidableEq, Repr

/-- The receiver after one method call (returned or panicked). -/
def SessOp.run (op : SessOp) (sess : Session) : Session :=
  match op with
  | SessOp.Get key => (sess.Get key).2
  | SessOp.Set key value => (sess.Set key value).1
  | SessOp.Del key => (sess.Del key).1
  | SessOp.SetUserID userID => sess.SetUserID userID

/-- Whether one method call panics. -/
def SessOp.panics (op : SessOp) (sess : Session) : Bool :=
  match op with
  | SessOp.Get key => (sess.Get key).1.isNone
  | SessOp.Set key value => (sess.Set key value).2
  | SessOp.Del key => (sess.Del key).2
  | SessOp.SetUserID _ => false

/-- The receiver after a sequence of method calls, each run to its return or its panic. -/
def runOps (ops : List SessOp) (sess : Session) : Session :=
  ops.foldl (fun s op => op.run s) sess

/-- The receiver after the calls of a handler that does not recover from a panic: the calls up
to and including the first that panics; and whether one panicked. -/
def runUntilPanic : List SessOp → Session → Session × Bool
  | [], sess => (sess, false)
  | op :: ops, sess =>
    if op.panics sess then (op.run sess, true) else runUntilPanic ops (op.run sess)

/-- A downstream `http.Handler`, given by the method calls it makes, in order, on the session
it obtains with `session.Get(r.Context())`. -/
abbrev Handler := Request → List SessOp

/-- The call `h.ServeHTTP(w, r)`: the heap afterwards, and whether the handler panicked (a
method called through a nil `*Session` dereferences nil; a map operation may panic). -/
def ServeHTTP (h : Handler) (r : Request) (heap : Heap) : Heap × Bool :=
  match h r with
  | [] => (heap, false)
  | op :: ops =>
    match Get r.ctx with
    | none => (heap, true)
    | some a =>
      match heap[a]? with
      | none => (heap, true)
      | some s =>
        (heap.set a (runUntilPanic (op :: ops) s).1, (runUntilPanic (op :: ops) s).2)

/-! ## The middleware (`func Middleware`) -/

/-- The local `entropy` of `Middleware`. -/
def entropy (config : Config) : Int :=
  if config.Entropy ≤ 0 then 16 else config.Entropy

/-- The local `sessName` of `Middleware`. -/
def sessName (config : Config) : String :=
  if len config.Name = 0 then "sess" else config.Name

/-- The local `maxAge` of `Middleware`: `int(config.MaxAge / time.Second)`, Go division
truncating toward zero. -/
def maxAge (config : Config) : Int :=
  Int.tdiv config.MaxAge Second

/-- The closure `generateID` of `Middleware`. -/
def generateID (env : Env) (config : Config) : String :=
  EncodeToString (randomBytes env (entropy config).toNat)

/-- The first part of the load step: `var sess Session`, then the cookie and store lookup
(`sess.id` stays empty when no stored session is found). -/
def lookup (env : Env) (config : Config) (store : Store) (r : Request) : Session :=
  let sess : Session := Session.zero
  match r.Cookie (sessName config) with
  | some cookie =>
    if len cookie.2 > 0 then
      match store.Get cookie.2 with
      | (sessData, none) =>
        if sessData.length > 0 then
          Session.decode env.gob { sess with id := cookie.2 } sessData
        else sess
      | (_, some _) => sess
    else sess
  | none => sess

/-- The load step of the request handler: the lookup, then the minting of a new session when
none was found. -/
def load (env : Env) (config : Config) (store : Store) (r : Request) : Session :=
  let sess : Session := lookup env config store r
  if len sess.id = 0 then
    { sess with id := generateID env config, isNew := true }
  else sess

/-- The `secure` flag of the issued cookie. -/
def secure (config : Config) (r : Request) : Bool :=
  let secure : Bool := decide (config.Secure = Secure.MustSecure)
  if config.Secure = Secure.PreferSecure ∧ isTLS r = true then true else secure

/-- The cookie passed to `http.SetCookie` (the rolling session cookie). -/
def issueCookie (config : Config) (r : Request) (sess : Session) : Cookie :=
  { Name := sessName config
    Domain := config.Domain
    Path := config.Path
    HttpOnly := config.HTTPOnly
    Value := sess.id
    MaxAge := maxAge config
    Secure := secure config r }

/-- The deferred function of the request handler: the calls to `config.Store.Set` it makes. -/
def deferredSave (env : Env) (config : Config) (sess : Session) : List SetCall :=
  if sess.isNew && !sess.modified then
    []
  else
    match Session.encode env.gob sess with
    | (b, some _) => [{ id := sess.id, userID := sess.userID, b := b, ttl := config.MaxAge }]
    | (_, none) => []

/-- What one request through the middleware produces. -/
structure Outcome where
  /-- The session after the load step. -/
  loaded : Session
  /-- The address of the local variable `sess`. -/
  addr : Nat
  /-- The cookies handed to `http.SetCookie`. -/
  cookies : List Cookie
  /-- The `Set-Cookie` headers on the response. -/
  sent : List SetCookieHeader
  /-- The request handed to the downstream handler. -/
  passed : Request
  /-- The local variable `sess` when the downstream handler is done. -/
  final : Session
  /-- Whether the downstream handler panicked. -/
  panicked : Bool
  /-- The calls to `config.Store.Set`, in order. -/
  sets : List SetCall
  deriving DecidableEq, Repr

/-- The `http.HandlerFunc` returned by the middleware for the downstream handler `h`. -/
def handle (env : Env) (config : Config) (store : Store) (h : Handler) (r : Request)
    (heap : Heap) : Outcome :=
  let sess : Session := load env config store r
  let addr : Nat := heap.length
  let heap1 : Heap := heap ++ [sess]
  let cookie : Cookie := issueCookie config r sess
  -- h.ServeHTTP(w, r), then the deferred function
  let served : Heap × Bool := ServeHTTP h r heap1
  let final : Session := served.1.getD addr sess
  { loaded := sess
    addr := addr
    cookies := [cookie]
    sent := SetCookie env cookie
    passed := r
    final := final
    panicked := served.2
    sets := deferredSave env config final }

/-- Function `func Middleware(config Config) middleware.Middleware`; the error is the panic
`session: nil store`. -/
def Middleware (env : Env) (config : Config) :
    Except String (Handler → Request → Heap → Outcome) :=
  match config.Store with
  | none => Except.error "session: nil store"
  | some store => Except.ok (fun h r heap => handle env config store h r heap)

/-! ## Fixtures for concrete requests -/

/-- A codec for concrete runs: payloads start with the tag 14; encoding always succeeds and
decoding fails on any payload without the tag, leaving the map as it was. -/
def tagGob : Gob where
  Encode := fun d => ([14, (d.getD []).length], none)
  Decode := fun b m =>
    if b.head? = some 14 then (m, none) else (m, some "gob: bad data")

/-- A codec whose encoder always fails. -/
def failGob : Gob where
  Encode := fun _ => ([], some "gob: type not registered for interface")
  Decode := fun _ m => (m, some "gob: bad data")

/-- A domain check for concrete runs: letters, digits, dots and hyphens. -/
def plainDomain (domain : String) : Bool :=
  domain.toList.all (fun c => c.isAlphanum || c.toNat == 45 || c.toNat == 46)

/-- An environment with the tagged codec and a fixed byte source. -/
def tagEnv : Env :=
  { gob := tagGob, rand := fun i => 7 * i + 3, validCookieDomain := plainDomain }

/-- An environment whose encoder fails. -/
def failEnv : Env :=
  { gob := failGob, rand := fun i => 7 * i + 3, validCookieDomain := plainDomain }

/-- A store holding a well-formed payload under `abc`, a malformed one under `bad`, an empty
one under `nul`, and nothing else. -/
def demoStore : Store where
  Get := fun id =>
    if id = "abc" then ([14, 0], none)
    else if id = "bad" then ([1, 2, 3], none)
    else if id = "nul" then ([], none)
    else ([], some "not found")

/-- A configuration with default name and entropy and a max age of ninety seconds and a half. -/
def demoConfig : Config :=
  { Store := some demoStore, Entropy := 0, Name := "", MaxAge := 90500000000,
    Domain := "example.org", Path := "/", HTTPOnly := true, Secure := Secure.PreferSecure }

/-- A request carrying the given session cookie value, over plain HTTP, with an empty context. -/
def requestWith (value : String) : Request :=
  { cookies := [("lang", "en"), ("sess", value)], tls := false, ctx := [] }

/-- A request without cookies, with an empty context. -/
def bareRequest : Request :=
  { cookies := [], tls := false, ctx := [] }

/-- A handler that makes no call on the session. -/
def idleHandler : Handler :=
  fun _ => []

/-- A handler that stores one value in the session it finds in the request context. -/
def writingHandler : Handler :=
  fun _ => [SessOp.Set (Value.str "user") (Value.int 42)]

/-- A session that is new and untouched. -/
def freshSession : Session :=
  { id := "AAAA", d := none, isNew := true, modified := false, userID := Value.nil }

/-! ## The expiring store (package `store/memory`) -/

namespace memory

/-- Modelled from the spec: the not-found error of the expiring store, whose implementation is
not among the sources (only its test is). -/
def errNotFound : String := "not found"

/-- Modelled from the spec: a store entry of the expiring store, whose implementation is not
among the sources: the opaque payload and the absolute expiration time, in nanoseconds. -/
structure Entry where
  value : Bytes
  expiresAt : Int
  deriving DecidableEq, Repr

/-- Modelled from the spec: the state of the expiring store, whose implementation is not among
the sources: the mapping from identifier to store entry. -/
abbrev Table := List (String × Entry)

/-- Modelled from the spec: `Set(id, payload, ttl)` of the expiring store, which is not among
the sources (its test calls it with these three arguments): it inserts or overwrites the entry
with `expiresAt = now + ttl` and has no error condition. -/
def Set (s : Table) (now : Int) (id : String) (payload : Bytes) (ttl : Int) :
    Table × Option String :=
  ((id, { value := payload, expiresAt := now + ttl }) ::
    s.filter (fun e => decide (e.1 ≠ id)), none)

/-- Modelled from the spec: whether an entry of the expiring store, which is not among the
sources, has expired: its ttl has elapsed, so an entry set with ttl `T` is live at every elapsed
time `t < T` and expired at every `t ≥ T`, and a zero or negative ttl expires immediately. -/
def Entry.expired (e : Entry) (now : Int) : Bool :=
  decide (now ≥ e.expiresAt)

/-- Modelled from the spec: `Get(id)` of the expiring store, which is not among the sources: it
looks up the entry; if absent, not-found; if present but expired, not-found (the caller never
observes expired data); the payload is `none` for a nil slice. -/
def Get (s : Table) (now : Int) (id : String) : Option Bytes × Option String :=
  match s.find? (fun e => decide (e.1 = id)) with
  | none => (none, some errNotFound)
  | some e =>
    if e.2.expired now then (none, some errNotFound) else (some e.2.value, none)

/-- Modelled from the spec: `Delete(id)` of the expiring store (`Del` in its test), which is not
among the sources: it removes the entry if present, and deleting an absent identifier is not an
error. -/
def Del (s : Table) (id : String) : Table × Option String :=
  (s.filter (fun e => decide (e.1 ≠ id)), none)

/-- Modelled from the spec: one pass of the background sweeper of the expiring store, which is
not among the sources: it removes the expired entries. -/
def sweep (s : Table) (now : Int) : Table :=
  s.filter (fun e => !e.2.expired now)

/-- The store after a sequence of sweeper passes at the given times. -/
def sweeps (s : Table) (times : List Int) : Table :=
  times.foldl sweep s

end memory

/-! ## Reference: base64url of RFC 4648

A second definition of the encoding, after the words of RFC 4648 (sections 4 and 5): the input
is read as a stream of bits, most significant bit first, and cut into groups of six bits; each
group indexes the URL and filename safe alphabet; `=` pads the output to a multiple of four
characters.  It shares nothing with `encodeURLChars`. -/

/-- The eight bits of a byte, most significant first. -/
def byteBits (x : Nat) : List Nat :=
  [x / 128 % 2, x / 64 % 2, x / 32 % 2, x / 16 % 2, x / 8 % 2, x / 4 % 2, x / 2 % 2, x % 2]

/-- The number a list of bits denotes, most significant bit first. -/
def bitsValue (bits : List Nat) : Nat :=
  bits.foldl (fun acc bit => 2 * acc + bit) 0

/-- The groups of six bits of a bit stream, as numbers; zero bits are added on the right of an
incomplete last group. -/
def sextets : List Nat → List Nat
  | b0 :: b1 :: b2 :: b3 :: b4 :: b5 :: rest =>
    bitsValue [b0, b1, b2, b3, b4, b5] :: sextets rest
  | [] => []
  | bits => [bitsValue (bits ++ List.replicate (6 - bits.length) 0)]

/-- The URL and filename safe alphabet (RFC 4648, table 2): `A`-`Z`, `a`-`z`, `0`-`9`, `-`,
`_`. -/
def urlSafeChar (n : Nat) : Char :=
  if n < 26 then Char.ofNat (65 + n)
  else if n < 52 then Char.ofNat (97 + (n - 26))
  else if n < 62 then Char.ofNat (48 + (n - 52))
  else if n = 62 then '-'
  else '_'

/-- The characters of the six-bit groups of the input. -/
def base64urlBody (b : Bytes) : List Char :=
  (sextets (b.flatMap byteBits)).map urlSafeChar

/-- The base64url encoding of RFC 4648, with padding. -/
def base64url (b : Bytes) : List Char :=
  base64urlBody b ++ List.replicate ((4 - (base64urlBody b).length % 4) % 4) '='

/-! ## Further fixtures -/

/-- The keys of the data map of a session are pairwise unequal under Go `==` (vacuous for the
nil map). -/
def Session.keysUnique (sess : Session) : Prop :=
  ∀ m : GoMap, sess.d = some m → m.Pairwise (fun a b => Value.goEq a.1 b.1 = false)

/-- The bytes of an ASCII string. -/
def asciiBytes (s : String) : Bytes :=
  s.toList.map Char.toNat

/-- A session with two entries. -/
def loadedSession : Session :=
  { id := "abc", d := some [(Value.str "user", Value.int 42), (Value.str "lang", Value.str "en")],
    isNew := false, modified := false, userID := Value.nil }

/-- A store table with one entry that expires at time 100. -/
def demoTable : memory.Table :=
  [("b", { value := [1, 2], expiresAt := 100 })]

/-! ## Lemmas on maps and sessions -/

theorem Value.goEq_self (key : Value) (hn : key ≠ Value.nan) : Value.goEq key key = true := by
  simp [Value.goEq, hn]

theorem Value.goEq_nan (a : Value) : Value.goEq a Value.nan = false := by
  by_cases h : a = Value.nan <;> simp [Value.goEq, h]

theorem Value.goEq_eq_true {a b : Value} (h : Value.goEq a b = true) :
    a = b ∧ a ≠ Value.nan := by
  simpa [Value.goEq] using h

theorem GoMap.lookup_cons_self (m : GoMap) (key value : Value) (hn : key ≠ Value.nan) :
    GoMap.lookup ((key, value) :: m) key = value := by
  simp [GoMap.lookup, List.find?_cons, Value.goEq_self key hn]

theorem GoMap.lookup_cons_other (m : GoMap) (key other value : Value)
    (hne : Value.goEq key other = false) :
    GoMap.lookup ((key, value) :: m) other = GoMap.lookup m other := by
  simp [GoMap.lookup, List.find?_cons, hne]

theorem GoMap.lookup_of_hasKey_false (m : GoMap) (key : Value)
    (h : GoMap.hasKey m key = false) : GoMap.lookup m key = Value.nil := by
  have hnone : m.find? (fun e => Value.goEq e.1 key) = none := by
    rw [List.find?_eq_none]
    intro e he
    simp only [GoMap.hasKey, List.any_eq_false] at h
    exact h e he
  simp [GoMap.lookup, hnone]

theorem GoMap.lookup_remove_self (m : GoMap) (key : Value) :
    GoMap.lookup (GoMap.remove m key) key = Value.nil := by
  have hnone : (GoMap.remove m key).find? (fun e => Value.goEq e.1 key) = none := by
    rw [List.find?_eq_none]
    intro e he
    have hne := (List.mem_filter.1 he).2
    simpa using hne
  simp [GoMap.lookup, hnone]

theorem GoMap.lookup_remove_other (m : GoMap) (key other : Value)
    (hne : Value.goEq key other = false) :
    GoMap.lookup (GoMap.remove m key) other = GoMap.lookup m other := by
  have hfind : (GoMap.remove m key).find? (fun e => Value.goEq e.1 other)
      = m.find? (fun e => Value.goEq e.1 other) := by
    unfold GoMap.remove
    rw [List.find?_filter]
    congr 1
    funext e
    cases ho : Value.goEq e.1 other with
    | false => simp
    | true =>
      have hk : Value.goEq e.1 key = false := by
        cases hk : Value.goEq e.1 key with
        | false => rfl
        | true =>
          exfalso
          have h1 := Value.goEq_eq_true ho
          have h2 := Value.goEq_eq_true hk
          have hkey : key ≠ Value.nan := fun h => h2.2 (h2.1.trans h)
          have heq : key = other := h2.1.symm.trans h1.1
          rw [heq] at hne hkey
          rw [Value.goEq_self other hkey] at hne
          exact absurd hne (by simp)
      simp [hk]
  simp [GoMap.lookup, hfind]

theorem GoMap.remove_pairwise (m : GoMap) (key : Value)
    (h : m.Pairwise (fun a b => Value.goEq a.1 b.1 = false)) :
    (GoMap.remove m key).Pairwise (fun a b => Value.goEq a.1 b.1 = false) :=
  List.Pairwise.sublist (List.filter_sublist m) h

theorem GoMap.cons_remove_pairwise (m : GoMap) (key value : Value)
    (h : m.Pairwise (fun a b => Value.goEq a.1 b.1 = false)) :
    ((key, value) :: GoMap.remove m key).Pairwise (fun a b => Value.goEq a.1 b.1 = false) := by
  rw [List.pairwise_cons]
  refine ⟨?_, GoMap.remove_pairwise m key h⟩
  intro e he
  have hne := (List.mem_filter.1 he).2
  cases hk : Value.goEq key e.1 with
  | false => rfl
  | true =>
    exfalso
    have h1 := Value.goEq_eq_true hk
    have hself : Value.goEq e.1 key = true := by
      rw [← h1.1]
      exact Value.goEq_self key h1.2
    rw [hself] at hne
    exact absurd hne (by simp)

theorem Session.Set_hashable (sess : Session) (key value : Value)
    (hk : key.hashable = true) :
    sess.Set key value =
      ({ sess with d := some ((key, value) :: GoMap.remove (sess.d.getD []) key),
                   modified := true }, false) := by
  cases hd : sess.d <;> cases hm : sess.modified <;>
    simp [Session.Set, GoMap.assign, hk, hd, hm]

theorem Session.Set_unhashable (sess : Session) (key value : Value)
    (hk : key.hashable = false) :
    sess.Set key value =
      ({ sess with d := some (sess.d.getD []), modified := true }, true) := by
  cases hd : sess.d <;> cases hm : sess.modified <;>
    simp [Session.Set, GoMap.assign, hk, hd, hm]

theorem Session.Del_nil (sess : Session) (key : Value) (hd : sess.d = none) :
    sess.Del key = (sess, false) := by
  unfold Session.Del
  rw [hd]

theorem Session.Del_hashable (sess : Session) (key : Value) (m : GoMap)
    (hd : sess.d = some m) (hk : key.hashable = true) :
    sess.Del key =
      ({ sess with d := some (GoMap.remove m key), modified := true }, false) := by
  cases hm : sess.modified <;> simp [Session.Del, GoMap.delete, hk, hd, hm]

theorem Session.Del_unhashable (sess : Session) (key : Value) (m : GoMap)
    (hd : sess.d = some m) (hk : key.hashable = false) :
    sess.Del key = ({ sess with modified := true }, true) := by
  cases hm : sess.modified <;> simp [Session.Del, GoMap.delete, hk, hd, hm]

theorem Session.Get_snd (sess : Session) (key : Value) : (sess.Get key).2 = sess := by
  unfold Session.Get
  cases sess.d <;> rfl

theorem runOps_cons (op : SessOp) (ops : List SessOp) (sess : Session) :
    runOps (op :: ops) sess = runOps ops (op.run sess) := rfl

theorem runOps_gets (keys : List Value) (sess : Session) :
    runOps (keys.map SessOp.Get) sess = sess := by
  induction keys with
  | nil => rfl
  | cons key rest ih =>
    rw [List.map_cons, runOps_cons]
    have hrun : (SessOp.Get key).run sess = sess := Session.Get_snd sess key
    rw [hrun]
    exact ih

theorem deferredSave_of_new_unmodified (env : Env) (config : Config) (sess : Session)
    (hnew : sess.isNew = true) (hmod : sess.modified = false) :
    deferredSave env config sess = [] := by
  simp [deferredSave, hnew, hmod]

theorem deferredSave_of_encode_ok (env : Env) (config : Config) (sess : Session)
    (henc : (Session.encode env.gob sess).2 = none) :
    deferredSave env config sess = [] := by
  unfold deferredSave
  split
  · rfl
  · split
    · rename_i b e heq
      rw [heq] at henc
      exact absurd henc (by simp)
    · rfl

theorem deferredSave_of_encode_error (env : Env) (config : Config) (sess : Session)
    (hsave : (sess.isNew && !sess.modified) = false)
    (henc : (Session.encode env.gob sess).2 ≠ none) :
    deferredSave env config sess =
      [{ id := sess.id, userID := sess.userID, b := (Session.encode env.gob sess).1,
         ttl := config.MaxAge }] := by
  unfold deferredSave
  rw [hsave]
  simp only [Bool.false_eq_true, if_false]
  split
  · rename_i b e heq
    rw [heq]
  · rename_i b heq
    rw [heq] at henc
    exact absurd rfl henc

/-! ## Claims on the deferred save and on the session methods -/

/-- C1 (brute-force guard): a session that is new and unmodified stays so under any sequence of
`Session.Get` calls and the deferred save then makes no `Store.Set` call; hence every request
whose session at handler completion is such a session makes no `Store.Set` call. -/
theorem brute_force_guard (env : Env) (config : Config) (sess : Session) (keys : List Value)
    (hnew : sess.isNew = true) (hmod : sess.modified = false) :
    deferredSave env config (runOps (keys.map SessOp.Get) sess) = [] ∧
    ∀ (store : Store) (h : Handler) (r : Request) (heap : Heap),
      (handle env config store h r heap).final = runOps (keys.map SessOp.Get) sess →
      (handle env config store h r heap).sets = [] := by
  have hsave : deferredSave env config (runOps (keys.map SessOp.Get) sess) = [] := by
    rw [runOps_gets]
    exact deferredSave_of_new_unmodified env config sess hnew hmod
  refine ⟨hsave, ?_⟩
  intro store h r heap hfinal
  show deferredSave env config (handle env config store h r heap).final = []
  rw [hfinal]
  exact hsave

theorem brute_force_guard_witness :
    freshSession.isNew = true ∧ freshSession.modified = false ∧
    deferredSave tagEnv demoConfig
      (runOps ([Value.str "user", Value.int 3].map SessOp.Get) freshSession) = [] ∧
    (handle tagEnv demoConfig demoStore idleHandler bareRequest []).final.isNew = true ∧
    (handle tagEnv demoConfig demoStore idleHandler bareRequest []).sets = [] :=
  ⟨rfl, rfl,
    (brute_force_guard tagEnv demoConfig freshSession [Value.str "user", Value.int 3]
      rfl rfl).1,
    by decide,
    (brute_force_guard tagEnv demoConfig
      (handle tagEnv demoConfig demoStore idleHandler bareRequest []).final [] (by decide)
      (by decide)).2 demoStore idleHandler bareRequest [] rfl⟩

/-- C2 (conditional persistence), evaluated on the code: the request carries the cookie of a
stored session, so the session is not new; encoding it succeeds, and the deferred save makes no
`Store.Set` call.  With an encoder that fails, the same request makes one `Store.Set` call, with
a nil payload. -/
theorem save_skipped_on_encode_success :
    (handle tagEnv demoConfig demoStore idleHandler (requestWith "abc") []).final.isNew = false ∧
    Session.encode tagEnv.gob
      (handle tagEnv demoConfig demoStore idleHandler (requestWith "abc") []).final
      = ([14, 0], none) ∧
    (handle tagEnv demoConfig demoStore idleHandler (requestWith "abc") []).sets = [] ∧
    (Session.encode failEnv.gob
      (handle failEnv demoConfig demoStore idleHandler (requestWith "abc") []).final).2
      = some "gob: type not registered for interface" ∧
    (handle failEnv demoConfig demoStore idleHandler (requestWith "abc") []).sets =
      [{ id := "abc", userID := Value.nil, b := [], ttl := 90500000000 }] := by
  decide

/-- C3 (context exposure), evaluated on the code: the handler is handed the incoming request
unchanged, so for a request with an empty context `session.Get(r.Context())` is nil inside the
handler; a handler that writes through it panics, and the session of the middleware is left
unmodified and is not saved. -/
theorem handler_context_has_no_session :
    (handle tagEnv demoConfig demoStore writingHandler bareRequest []).passed = bareRequest ∧
    Get (handle tagEnv demoConfig demoStore writingHandler bareRequest []).passed.ctx = none ∧
    (handle tagEnv demoConfig demoStore writingHandler bareRequest []).panicked = true ∧
    (handle tagEnv demoConfig demoStore writingHandler bareRequest []).final.modified = false ∧
    (handle tagEnv demoConfig demoStore writingHandler bareRequest []).sets = [] := by
  decide

/-- C4, as stated, fails: with a NaN as key `Set` returns normally and the following `Get` on
the same key returns nil, not the value; with a slice as key `Set` panics. -/
theorem set_get_nan_key_not_found :
    (freshSession.Set Value.nan (Value.int 1)).2 = false ∧
    ((freshSession.Set Value.nan (Value.int 1)).1.Get Value.nan).1 = some Value.nil ∧
    (freshSession.Set (Value.slice [1]) (Value.int 1)).2 = true := by
  decide

/-- C4, amended (same-request round trip): for a key that is hashable and equal to itself,
`sess.Set(k, v)` returns normally and `sess.Get(k)` then returns `v`, also when the data map did
not exist before; for a NaN key `Set` returns normally and `Get` returns nil; for a key of an
unhashable type `Set` panics. -/
theorem set_get_round_trip (sess : Session) (key value : Value) :
    (key.hashable = true → key ≠ Value.nan →
      (sess.Set key value).2 = false ∧
      ((sess.Set key value).1.Get key).1 = some value) ∧
    (key = Value.nan →
      (sess.Set key value).2 = false ∧
      ((sess.Set key value).1.Get key).1 = some Value.nil) ∧
    (key.hashable = false → (sess.Set key value).2 = true) := by
  refine ⟨?_, ?_, ?_⟩
  · intro hk hn
    rw [Session.Set_hashable sess key value hk]
    refine ⟨rfl, ?_⟩
    simp only [Session.Get, GoMap.index, hk, if_true]
    exact congrArg some (GoMap.lookup_cons_self _ key value hn)
  · intro hnan
    subst hnan
    rw [Session.Set_hashable sess Value.nan value rfl]
    refine ⟨rfl, ?_⟩
    simp only [Session.Get, GoMap.index, Value.hashable, if_true]
    rw [GoMap.lookup_cons_other _ Value.nan Value.nan value (Value.goEq_nan Value.nan)]
    exact congrArg some (GoMap.lookup_remove_self _ Value.nan)
  · intro hk
    rw [Session.Set_unhashable sess key value hk]

theorem set_get_round_trip_witness :
    ((loadedSession.Set (Value.str "user") (Value.int 7)).1.Get (Value.str "user")).1
      = some (Value.int 7) ∧
    ((freshSession.Set Value.nil (Value.int 7)).1.Get Value.nil).1 = some (Value.int 7) ∧
    ((loadedSession.Set Value.nan (Value.int 7)).1.Get Value.nan).1 = some Value.nil ∧
    (loadedSession.Set (Value.slice []) (Value.int 7)).2 = true :=
  ⟨((set_get_round_trip loadedSession (Value.str "user") (Value.int 7)).1 rfl (by decide)).2,
   ((set_get_round_trip freshSession Value.nil (Value.int 7)).1 rfl (by decide)).2,
   ((set_get_round_trip loadedSession Value.nan (Value.int 7)).2.1 rfl).2,
   (set_get_round_trip loadedSession (Value.slice []) (Value.int 7)).2.2 rfl⟩

/-- C5, as stated, fails: on a session whose data map is absent and whose `modified` flag is
false, `Del` leaves the flag false. -/
theorem del_on_absent_map_stays_unmodified :
    freshSession.d = none ∧ (freshSession.Del (Value.str "user")).1.modified = false := by
  decide

/-- C5, amended: on a session whose data map exists, `Del` sets `modified`, whether or not the
key is present; on a session whose data map is absent, `Del` returns at once and changes
nothing. -/
theorem del_marks_modified (sess : Session) (key : Value) :
    (sess.d ≠ none → (sess.Del key).1.modified = true) ∧
    (sess.d = none → sess.Del key = (sess, false)) := by
  constructor
  · intro hd
    cases hdm : sess.d with
    | none => exact absurd hdm hd
    | some m =>
      cases hk : key.hashable
      · rw [Session.Del_unhashable sess key m hdm hk]
      · rw [Session.Del_hashable sess key m hdm hk]
  · intro hd
    exact Session.Del_nil sess key hd

theorem del_marks_modified_witness :
    (({ freshSession with d := some [] } : Session).Del (Value.str "user")).1.modified = true ∧
    freshSession.Del (Value.str "user") = (freshSession, false) :=
  ⟨(del_marks_modified { freshSession with d := some [] } (Value.str "user")).1 (by decide),
   (del_marks_modified freshSession (Value.str "user")).2 rfl⟩

/-- C6, as stated, fails: on a session whose data map exists and has no entry for the key,
`Get` with a slice as key does not return nil; it panics. -/
theorem get_unhashable_key_panics :
    GoMap.hasKey [] (Value.slice [1]) = false ∧
    (({ freshSession with d := some [] } : Session).Get (Value.slice [1])).1 = none := by
  decide

/-- C6, amended (`Session.Get` is a pure read): the receiver is unchanged in every field; the
result is nil when the data map is absent, and when the data map exists and the key is hashable
and has no entry; when the data map exists and the key is of an unhashable type the call
panics. -/
theorem get_pure_read (sess : Session) (key : Value) :
    (sess.Get key).2 = sess ∧
    (sess.d = none → (sess.Get key).1 = some Value.nil) ∧
    (∀ m : GoMap, sess.d = some m → key.hashable = true → GoMap.hasKey m key = false →
      (sess.Get key).1 = some Value.nil) ∧
    (∀ m : GoMap, sess.d = some m → key.hashable = false → (sess.Get key).1 = none) := by
  refine ⟨Session.Get_snd sess key, ?_, ?_, ?_⟩
  · intro hd
    unfold Session.Get
    rw [hd]
  · intro m hd hk hkey
    unfold Session.Get
    rw [hd]
    simp only [GoMap.index, hk, if_true]
    exact congrArg some (GoMap.lookup_of_hasKey_false m key hkey)
  · intro m hd hk
    unfold Session.Get
    rw [hd]
    simp [GoMap.index, hk]

theorem get_pure_read_witness :
    (freshSession.Get (Value.str "user")).2 = freshSession ∧
    (freshSession.Get (Value.slice [1])).1 = some Value.nil ∧
    (loadedSession.Get (Value.str "theme")).1 = some Value.nil ∧
    (loadedSession.Get (Value.slice [1])).1 = none :=
  ⟨(get_pure_read freshSession (Value.str "user")).1,
   (get_pure_read freshSession (Value.slice [1])).2.1 rfl,
   (get_pure_read loadedSession (Value.str "theme")).2.2.1
     [(Value.str "user", Value.int 42), (Value.str "lang", Value.str "en")] rfl rfl
     (by decide),
   (get_pure_read loadedSession (Value.slice [1])).2.2.2
     [(Value.str "user", Value.int 42), (Value.str "lang", Value.str "en")] rfl rfl⟩

/-! ## Lemmas on the load step -/

theorem len_eq_zero_iff (s : String) : len s = 0 ↔ s = "" := by
  constructor
  · intro h
    cases s with
    | mk l =>
      cases l with
      | nil => rfl
      | cons c cs =>
        exfalso
        have hpos := Char.utf8Size_pos c
        simp only [len, String.utf8ByteSize, String.utf8ByteSize.go] at h
        omega
  · intro h
    rw [h]
    rfl

theorem encodeURLChars_ne_nil (b : Bytes) (hb : b ≠ []) : encodeURLChars b ≠ [] := by
  match b, hb with
  | [_], _ => simp [encodeURLChars]
  | [_, _], _ => simp [encodeURLChars]
  | _ :: _ :: _ :: _, _ => simp [encodeURLChars]

theorem randomBytes_length (env : Env) (n : Nat) : (randomBytes env n).length = n := by
  simp [randomBytes]

theorem entropy_pos (config : Config) : 0 < entropy config := by
  unfold entropy
  split <;> omega

theorem generateID_ne_empty (env : Env) (config : Config) : generateID env config ≠ "" := by
  have hpos := entropy_pos config
  have hlen := randomBytes_length env (entropy config).toNat
  have hne : randomBytes env (entropy config).toNat ≠ [] := by
    intro h
    rw [h] at hlen
    simp at hlen
    omega
  have hchars := encodeURLChars_ne_nil _ hne
  intro h
  apply hchars
  have := congrArg String.data h
  simpa [generateID, EncodeToString] using this

theorem lookup_no_cookie (env : Env) (config : Config) (store : Store) (r : Request)
    (hc : r.Cookie (sessName config) = none) :
    lookup env config store r = Session.zero := by
  unfold lookup
  rw [hc]

theorem lookup_empty_value (env : Env) (config : Config) (store : Store) (r : Request)
    (c : String × String) (hc : r.Cookie (sessName config) = some c) (hv : c.2 = "") :
    lookup env config store r = Session.zero := by
  unfold lookup
  rw [hc]
  have hlen : ¬ len c.2 > 0 := by
    rw [(len_eq_zero_iff c.2).2 hv]
    omega
  simp only [hlen, if_false]

theorem lookup_store_error (env : Env) (config : Config) (store : Store) (r : Request)
    (c : String × String) (hc : r.Cookie (sessName config) = some c)
    (he : (store.Get c.2).2 ≠ none) :
    lookup env config store r = Session.zero := by
  unfold lookup
  rw [hc]
  simp only
  split
  · split
    · rename_i b heq
      rw [heq] at he
      exact absurd rfl he
    · rfl
  · rfl

theorem lookup_empty_payload (env : Env) (config : Config) (store : Store) (r : Request)
    (c : String × String) (hc : r.Cookie (sessName config) = some c)
    (hb : (store.Get c.2).1 = []) :
    lookup env config store r = Session.zero := by
  unfold lookup
  rw [hc]
  simp only
  split
  · split
    · rename_i b heq
      rw [heq] at hb
      simp only at hb
      rw [hb]
      rfl
    · rfl
  · rfl

theorem lookup_found (env : Env) (config : Config) (store : Store) (r : Request)
    (c : String × String) (hc : r.Cookie (sessName config) = some c) (hv : c.2 ≠ "")
    (he : (store.Get c.2).2 = none) (hb : (store.Get c.2).1 ≠ []) :
    lookup env config store r =
      Session.decode env.gob { Session.zero with id := c.2 } (store.Get c.2).1 := by
  unfold lookup
  rw [hc]
  have hlen : len c.2 > 0 := by
    have := (len_eq_zero_iff c.2).not.2 hv
    omega
  simp only [hlen, if_true]
  split
  · rename_i b heq
    rw [heq] at hb
    simp only at hb
    have hpos : b.length > 0 := List.length_pos.2 hb
    simp only [hpos, if_true, heq]
  · rename_i b e heq
    rw [heq] at he
    exact absurd he (by simp)

theorem load_of_lookup_zero (env : Env) (config : Config) (store : Store) (r : Request)
    (h : lookup env config store r = Session.zero) :
    load env config store r =
      { Session.zero with id := generateID env config, isNew := true } := by
  unfold load
  rw [h]
  rfl

theorem load_found (env : Env) (config : Config) (store : Store) (r : Request)
    (c : String × String) (hc : r.Cookie (sessName config) = some c) (hv : c.2 ≠ "")
    (he : (store.Get c.2).2 = none) (hb : (store.Get c.2).1 ≠ []) :
    load env config store r =
      { id := c.2, d := some (env.gob.Decode (store.Get c.2).1 []).1, isNew := false,
        modified := false, userID := Value.nil } := by
  unfold load
  rw [lookup_found env config store r c hc hv he hb]
  have hlen : ¬ len c.2 = 0 := (len_eq_zero_iff c.2).not.2 hv
  simp only [Session.decode, Session.zero, hlen, if_false]

theorem load_modified (env : Env) (config : Config) (store : Store) (r : Request) :
    (load env config store r).modified = false := by
  cases hc : r.Cookie (sessName config) with
  | none => rw [load_of_lookup_zero _ _ _ _ (lookup_no_cookie env config store r hc)]; rfl
  | some c =>
    by_cases hv : c.2 = ""
    · rw [load_of_lookup_zero _ _ _ _ (lookup_empty_value env config store r c hc hv)]; rfl
    · by_cases he : (store.Get c.2).2 = none
      · by_cases hb : (store.Get c.2).1 = []
        · rw [load_of_lookup_zero _ _ _ _ (lookup_empty_payload env config store r c hc hb)]
          rfl
        · rw [load_found env config store r c hc hv he hb]
      · rw [load_of_lookup_zero _ _ _ _ (lookup_store_error env config store r c hc he)]; rfl

theorem SessOp.run_id_isNew (op : SessOp) (sess : Session) :
    (op.run sess).id = sess.id ∧ (op.run sess).isNew = sess.isNew := by
  cases op with
  | Get key => simp [SessOp.run, Session.Get_snd]
  | Set key value =>
    simp only [SessOp.run]
    cases hk : key.hashable
    · rw [Session.Set_unhashable sess key value hk]
      exact ⟨rfl, rfl⟩
    · rw [Session.Set_hashable sess key value hk]
      exact ⟨rfl, rfl⟩
  | Del key =>
    simp only [SessOp.run]
    cases hd : sess.d with
    | none =>
      rw [Session.Del_nil sess key hd]
      exact ⟨rfl, rfl⟩
    | some m =>
      cases hk : key.hashable
      · rw [Session.Del_unhashable sess key m hd hk]
        exact ⟨rfl, rfl⟩
      · rw [Session.Del_hashable sess key m hd hk]
        exact ⟨rfl, rfl⟩
  | SetUserID userID => simp [SessOp.run, Session.SetUserID]

theorem runOps_id_isNew (ops : List SessOp) (sess : Session) :
    (runOps ops sess).id = sess.id ∧ (runOps ops sess).isNew = sess.isNew := by
  induction ops generalizing sess with
  | nil => exact ⟨rfl, rfl⟩
  | cons op rest ih =>
    rw [runOps_cons]
    have hrest := ih (op.run sess)
    have hop := SessOp.run_id_isNew op sess
    exact ⟨hrest.1.trans hop.1, hrest.2.trans hop.2⟩

theorem runUntilPanic_id (ops : List SessOp) (sess : Session) :
    (runUntilPanic ops sess).1.id = sess.id := by
  induction ops generalizing sess with
  | nil => rfl
  | cons op rest ih =>
    unfold runUntilPanic
    split
    · exact (SessOp.run_id_isNew op sess).1
    · exact (ih (op.run sess)).trans (SessOp.run_id_isNew op sess).1

theorem ServeHTTP_local_id (h : Handler) (r : Request) (heap : Heap) (sess : Session) :
    ((ServeHTTP h r (heap ++ [sess])).1.getD heap.length sess).id = sess.id := by
  have hlocal : (heap ++ [sess]).getD heap.length sess = sess := by
    simp [List.getD]
  unfold ServeHTTP
  split
  · rw [hlocal]
  · split
    · rw [hlocal]
    · rename_i a _
      split
      · rw [hlocal]
      · rename_i s hs
        by_cases ha : a = heap.length
        · subst ha
          have hs2 : s = sess := by
            simpa using hs.symm
          subst hs2
          simp only [List.getD, List.getElem?_set, List.length_append, List.length_singleton]
          simp [runUntilPanic_id _ s]
        · simp only [List.getD, List.getElem?_set]
          simp [ha]

theorem handle_final_id (env : Env) (config : Config) (store : Store) (h : Handler)
    (r : Request) (heap : Heap) :
    (handle env config store h r heap).final.id = (handle env config store h r heap).loaded.id :=
  ServeHTTP_local_id h r heap (load env config store r)


theorem handle_passed (env : Env) (config : Config) (store : Store) (h : Handler)
    (r : Request) (heap : Heap) :
    (handle env config store h r heap).passed = r := rfl

/-- The handler cannot reach the local session: when the context of the incoming request points
at most at sessions that already exist, the pointer found in the context of the request handed
to the handler is not the address of `sess`, and `sess` is at handler completion as it was
loaded. -/
theorem handle_local_untouched (env : Env) (config : Config) (store : Store) (h : Handler)
    (r : Request) (heap : Heap) (hctx : ∀ a, Get r.ctx = some a → a < heap.length) :
    Get (handle env config store h r heap).passed.ctx
      ≠ some (handle env config store h r heap).addr ∧
    (handle env config store h r heap).final = (handle env config store h r heap).loaded := by
  constructor
  · intro hget
    have hlt := hctx _ hget
    simp [handle] at hlt
  · show (ServeHTTP h r (heap ++ [load env config store r])).1.getD heap.length
      (load env config store r) = load env config store r
    have hlocal : (heap ++ [load env config store r]).getD heap.length
        (load env config store r) = load env config store r := by
      simp [List.getD]
    unfold ServeHTTP
    split
    · rw [hlocal]
    · split
      · rw [hlocal]
      · rename_i a ha
        split
        · rw [hlocal]
        · have hlt := hctx a ha
          have hne : ¬ a = heap.length := by omega
          simp only [List.getD, List.getElem?_set]
          simp [hne]

/-! ## Claims on identity, the load step and the cookie -/

/-- C7 (`SetUserID` attaches the marker without forcing `modified`): the marker is set, the
fields `modified`, `isNew`, `id` and the data map are unchanged, and a new, unmodified session
(in particular one straight from the load step) is still not saved after it. -/
theorem setUserID_frame (env : Env) (config : Config) (sess : Session) (marker : Value) :
    (sess.SetUserID marker).userID = marker ∧
    (sess.SetUserID marker).modified = sess.modified ∧
    (sess.SetUserID marker).isNew = sess.isNew ∧
    (sess.SetUserID marker).id = sess.id ∧
    (sess.SetUserID marker).d = sess.d ∧
    (sess.isNew = true → sess.modified = false →
      deferredSave env config (sess.SetUserID marker) = []) ∧
    (∀ (store : Store) (r : Request), (load env config store r).isNew = true →
      deferredSave env config ((load env config store r).SetUserID marker) = []) := by
  refine ⟨rfl, rfl, rfl, rfl, rfl, ?_, ?_⟩
  · intro hnew hmod
    exact deferredSave_of_new_unmodified env config _ hnew hmod
  · intro store r hnew
    exact deferredSave_of_new_unmodified env config _ hnew (load_modified env config store r)

theorem setUserID_frame_witness :
    (freshSession.SetUserID (Value.int 42)).userID = Value.int 42 ∧
    deferredSave tagEnv demoConfig (freshSession.SetUserID (Value.int 42)) = [] ∧
    deferredSave tagEnv demoConfig
      ((load tagEnv demoConfig demoStore bareRequest).SetUserID (Value.int 42)) = [] :=
  ⟨(setUserID_frame tagEnv demoConfig freshSession (Value.int 42)).1,
   (setUserID_frame tagEnv demoConfig freshSession (Value.int 42)).2.2.2.2.2.1 rfl rfl,
   (setUserID_frame tagEnv demoConfig freshSession (Value.int 42)).2.2.2.2.2.2
     demoStore bareRequest (by decide)⟩

/-- C8 (load decision): after the load step `isNew` holds exactly when the cookie is missing,
or its value is empty, or `Store.Get` on its value returns an error or an empty payload; a
session that is not new carries the cookie value as id, a new one a generated, non-empty id. -/
theorem load_decision (env : Env) (config : Config) (store : Store) (r : Request) :
    ((load env config store r).isNew = true ↔
      (r.Cookie (sessName config) = none ∨
        ∃ c, r.Cookie (sessName config) = some c ∧
          (c.2 = "" ∨ (store.Get c.2).2 ≠ none ∨ (store.Get c.2).1 = []))) ∧
    ((load env config store r).isNew = false →
      ∃ c, r.Cookie (sessName config) = some c ∧ (load env config store r).id = c.2) ∧
    ((load env config store r).isNew = true →
      (load env config store r).id = generateID env config ∧
      (load env config store r).id ≠ "") := by
  have hmint : lookup env config store r = Session.zero →
      (load env config store r).isNew = true ∧
      (load env config store r).id = generateID env config ∧
      (load env config store r).id ≠ "" := by
    intro hz
    rw [load_of_lookup_zero env config store r hz]
    exact ⟨rfl, rfl, generateID_ne_empty env config⟩
  cases hc : r.Cookie (sessName config) with
  | none =>
    have hm := hmint (lookup_no_cookie env config store r hc)
    refine ⟨⟨fun _ => Or.inl rfl, fun _ => hm.1⟩, ?_, fun _ => hm.2⟩
    intro hf
    rw [hm.1] at hf
    exact absurd hf (by simp)
  | some c =>
    by_cases hmiss : c.2 = "" ∨ (store.Get c.2).2 ≠ none ∨ (store.Get c.2).1 = []
    · have hz : lookup env config store r = Session.zero := by
        rcases hmiss with hv | he | hb
        · exact lookup_empty_value env config store r c hc hv
        · exact lookup_store_error env config store r c hc he
        · exact lookup_empty_payload env config store r c hc hb
      have hm := hmint hz
      refine ⟨⟨fun _ => Or.inr ⟨c, rfl, hmiss⟩, fun _ => hm.1⟩, ?_, fun _ => hm.2⟩
      intro hf
      rw [hm.1] at hf
      exact absurd hf (by simp)
    · have hv : c.2 ≠ "" := fun hv => hmiss (Or.inl hv)
      have he : (store.Get c.2).2 = none := by
        by_contra he
        exact hmiss (Or.inr (Or.inl he))
      have hb : (store.Get c.2).1 ≠ [] := fun hb => hmiss (Or.inr (Or.inr hb))
      have hload := load_found env config store r c hc hv he hb
      refine ⟨⟨?_, ?_⟩, ?_, ?_⟩
      · intro hnew
        rw [hload] at hnew
        exact absurd hnew (by simp)
      · intro hnot
        rcases hnot with hnone | ⟨c2, hc2, hmiss2⟩
        · exact absurd hnone (by simp)
        · have hcc : c2 = c := (Option.some.inj hc2).symm
          subst hcc
          exact absurd hmiss2 hmiss
      · intro _
        exact ⟨c, rfl, by rw [hload]⟩
      · intro hnew
        rw [hload] at hnew
        exact absurd hnew (by simp)

theorem load_decision_witness :
    (load tagEnv demoConfig demoStore (requestWith "abc")).id = "abc" ∧
    (load tagEnv demoConfig demoStore (requestWith "nul")).id
      = generateID tagEnv demoConfig ∧
    (load tagEnv demoConfig demoStore (requestWith "nul")).id ≠ "" :=
  ⟨by
    obtain ⟨c, hc, hid⟩ :=
      (load_decision tagEnv demoConfig demoStore (requestWith "abc")).2.1 (by decide)
    have hcc : c = ("sess", "abc") := by
      have hcookie : (requestWith "abc").Cookie (sessName demoConfig) = some ("sess", "abc") := by
        decide
      rw [hcookie] at hc
      exact (Option.some.inj hc).symm
    rw [hid, hcc],
   ((load_decision tagEnv demoConfig demoStore (requestWith "nul")).2.2 (by decide)).1,
   ((load_decision tagEnv demoConfig demoStore (requestWith "nul")).2.2 (by decide)).2⟩


/-- C9, as stated, fails: the store returns a non-empty payload that the decoder rejects, and
the session after the load step is not new; it keeps the id of the cookie. -/
theorem undecodable_payload_is_not_new :
    demoStore.Get "bad" = ([1, 2, 3], none) ∧
    (tagEnv.gob.Decode [1, 2, 3] []).2 = some "gob: bad data" ∧
    (load tagEnv demoConfig demoStore (requestWith "bad")).isNew = false ∧
    (load tagEnv demoConfig demoStore (requestWith "bad")).id = "bad" := by
  decide

/-- C9, amended: when the cookie names an identifier for which `Store.Get` returns a non-empty
payload that cannot be decoded, the decoder error is dropped and the session after the load
step is not new: it has the cookie value as id, `isNew` and `modified` false, no user id, and
as data the freshly made map as the decoder left it. -/
theorem decode_failure_keeps_session (env : Env) (config : Config) (store : Store)
    (r : Request) (c : String × String)
    (hc : r.Cookie (sessName config) = some c) (hv : c.2 ≠ "")
    (he : (store.Get c.2).2 = none) (hb : (store.Get c.2).1 ≠ [])
    (_hdec : (env.gob.Decode (store.Get c.2).1 []).2 ≠ none) :
    (load env config store r).isNew = false ∧
    (load env config store r).id = c.2 ∧
    (load env config store r).modified = false ∧
    (load env config store r).userID = Value.nil ∧
    (load env config store r).d = some (env.gob.Decode (store.Get c.2).1 []).1 := by
  rw [load_found env config store r c hc hv he hb]
  exact ⟨rfl, rfl, rfl, rfl, rfl⟩

theorem decode_failure_keeps_session_witness :
    (load tagEnv demoConfig demoStore (requestWith "bad")).isNew = false ∧
    (load tagEnv demoConfig demoStore (requestWith "bad")).id = "bad" ∧
    (load tagEnv demoConfig demoStore (requestWith "bad")).modified = false ∧
    (load tagEnv demoConfig demoStore (requestWith "bad")).userID = Value.nil ∧
    (load tagEnv demoConfig demoStore (requestWith "bad")).d = some [] :=
  decode_failure_keeps_session tagEnv demoConfig demoStore (requestWith "bad") ("sess", "bad")
    (by decide) (by decide) (by decide) (by decide) (by decide)

/-- C10, as stated, fails: with the configured cookie name `my sess`, which is not a valid
cookie name, the middleware hands its cookie to `http.SetCookie` but the response carries no
`Set-Cookie` header; and with a negative max age the header carries `Max-Age=0`, not the
configured seconds. -/
theorem invalid_cookie_name_sends_nothing :
    (handle tagEnv { demoConfig with Name := "my sess" } demoStore idleHandler bareRequest
      []).cookies.map Cookie.Name = ["my sess"] ∧
    (handle tagEnv { demoConfig with Name := "my sess" } demoStore idleHandler bareRequest
      []).sent = [] ∧
    (handle tagEnv { demoConfig with MaxAge := -90500000000 } demoStore idleHandler bareRequest
      []).cookies.map Cookie.MaxAge = [-90] ∧
    (handle tagEnv { demoConfig with MaxAge := -90500000000 } demoStore idleHandler bareRequest
      []).sent.map SetCookieHeader.MaxAge = [some 0] := by
  decide

/-- C10, amended (rolling cookie): with a store configured the middleware is built, and on
every request it hands exactly one cookie to `http.SetCookie`, whose name is the configured
name (`sess` when none is configured), whose value is the id of the session of this request,
whose max age is the configured duration divided by one second, truncated, and whose domain,
path and http-only flag are those of the configuration.  When that name is a valid cookie name
the response carries exactly one `Set-Cookie` header, with that name, the sanitised id as
value, the http-only flag, and as `Max-Age` the seconds when positive, `0` when negative and
nothing when zero; when the name is not valid the response carries no `Set-Cookie` header. -/
theorem rolling_cookie (env : Env) (config : Config) (store : Store)
    (hs : config.Store = some store) :
    ∃ mw, Middleware env config = Except.ok mw ∧
      ∀ (h : Handler) (r : Request) (heap : Heap),
        (∃ c, (mw h r heap).cookies = [c] ∧
          c.Name = (if config.Name = "" then "sess" else config.Name) ∧
          c.Value = (mw h r heap).loaded.id ∧
          c.Value = (mw h r heap).final.id ∧
          c.MaxAge = Int.tdiv config.MaxAge 1000000000 ∧
          c.Domain = config.Domain ∧
          c.Path = config.Path ∧
          c.HttpOnly = config.HTTPOnly) ∧
        (isCookieNameValid (if config.Name = "" then "sess" else config.Name) = true →
          ∃ hd, (mw h r heap).sent = [hd] ∧
            hd.Name = (if config.Name = "" then "sess" else config.Name) ∧
            hd.Value = sanitizeCookieValue (mw h r heap).loaded.id ∧
            hd.HttpOnly = config.HTTPOnly ∧
            hd.MaxAge = maxAgeAttribute (Int.tdiv config.MaxAge 1000000000)) ∧
        (isCookieNameValid (if config.Name = "" then "sess" else config.Name) = false →
          (mw h r heap).sent = []) := by
  have hname : sessName config = (if config.Name = "" then "sess" else config.Name) := by
    unfold sessName
    by_cases hn : config.Name = ""
    · rw [if_pos ((len_eq_zero_iff config.Name).2 hn), if_pos hn]
    · rw [if_neg ((len_eq_zero_iff config.Name).not.2 hn), if_neg hn]
  refine ⟨fun h r heap => handle env config store h r heap, ?_, ?_⟩
  · unfold Middleware
    rw [hs]
  · intro h r heap
    refine ⟨?_, ?_, ?_⟩
    · exact ⟨issueCookie config r (load env config store r), rfl, hname, rfl,
        (handle_final_id env config store h r heap).symm, rfl, rfl, rfl, rfl⟩
    · intro hvalid
      rw [← hname] at hvalid
      have hsent : (handle env config store h r heap).sent
          = SetCookie env (issueCookie config r (load env config store r)) := rfl
      have hvalid2 : isCookieNameValid (issueCookie config r (load env config store r)).Name
          = true := hvalid
      rw [hsent]
      unfold SetCookie
      rw [if_pos hvalid2]
      exact ⟨_, rfl, hname, rfl, rfl, rfl⟩
    · intro hinvalid
      rw [← hname] at hinvalid
      have hsent : (handle env config store h r heap).sent
          = SetCookie env (issueCookie config r (load env config store r)) := rfl
      have hinvalid2 : isCookieNameValid (issueCookie config r (load env config store r)).Name
          = false := hinvalid
      rw [hsent]
      unfold SetCookie
      rw [hinvalid2]
      rfl

theorem rolling_cookie_witness :
    (handle tagEnv demoConfig demoStore idleHandler (requestWith "abc") []).sent.map
      SetCookieHeader.Name = ["sess"] ∧
    (handle tagEnv demoConfig demoStore idleHandler (requestWith "abc") []).sent.map
      SetCookieHeader.MaxAge = [some 90] ∧
    (handle tagEnv { demoConfig with Name := "my sess" } demoStore idleHandler
      (requestWith "abc") []).sent = [] := by
  obtain ⟨mw, hmw, hall⟩ := rolling_cookie tagEnv demoConfig demoStore rfl
  obtain ⟨mw2, hmw2, hall2⟩ :=
    rolling_cookie tagEnv { demoConfig with Name := "my sess" } demoStore rfl
  have hfun : mw = fun h r heap => handle tagEnv demoConfig demoStore h r heap := by
    have := hmw
    simp only [Middleware, demoConfig] at this
    exact (Except.ok.inj this).symm
  have hfun2 : mw2 = fun h r heap =>
      handle tagEnv { demoConfig with Name := "my sess" } demoStore h r heap := by
    have := hmw2
    simp only [Middleware, demoConfig] at this
    exact (Except.ok.inj this).symm
  obtain ⟨hd, hsent, hname, _, _, hmax⟩ :=
    (hall idleHandler (requestWith "abc") []).2.1 (by decide)
  have hnone := (hall2 idleHandler (requestWith "abc") []).2.2 (by decide)
  rw [hfun] at hsent
  rw [hfun2] at hnone
  refine ⟨?_, ?_, hnone⟩
  · rw [hsent, List.map_cons, List.map_nil, hname]
    rfl
  · rw [hsent, List.map_cons, List.map_nil, hmax]
    rfl

/-! ## Claims on the security policy, construction and the context slot -/

/-- C11 (secure policy): the `Secure` flag of the issued cookie is true exactly when the policy
is `MustSecure`, or the policy is `PreferSecure` and the request arrived over TLS; under the
never policy it is false for every request. -/
theorem secure_policy (env : Env) (config : Config) (store : Store) (h : Handler)
    (r : Request) (heap : Heap) :
    (∃ c, (handle env config store h r heap).cookies = [c] ∧
      (c.Secure = true ↔
        (config.Secure = Secure.MustSecure ∨
          (config.Secure = Secure.PreferSecure ∧ isTLS r = true)))) ∧
    (config.Secure = Secure.NoSecure →
      (handle env config store h r heap).cookies.map Cookie.Secure = [false]) := by
  constructor
  · refine ⟨issueCookie config r (load env config store r), rfl, ?_⟩
    show secure config r = true ↔ _
    unfold secure
    cases hsec : config.Secure <;> cases htls : isTLS r <;> simp
  · intro hno
    show [secure config r] = [false]
    unfold secure
    rw [hno]
    simp

theorem secure_policy_witness :
    (handle tagEnv { demoConfig with Secure := Secure.NoSecure } demoStore idleHandler
      { bareRequest with tls := true } []).cookies.map Cookie.Secure = [false] :=
  (secure_policy tagEnv { demoConfig with Secure := Secure.NoSecure } demoStore idleHandler
    { bareRequest with tls := true } []).2 rfl

/-- C12 (nil store is a startup error): with a nil store `Middleware` panics at construction,
so no handler is wrapped; with a non-nil store construction yields the middleware. -/
theorem nil_store_panics (env : Env) (config : Config) :
    (config.Store = none → Middleware env config = Except.error "session: nil store") ∧
    (config.Store ≠ none → ∃ mw, Middleware env config = Except.ok mw) := by
  constructor
  · intro hs
    unfold Middleware
    rw [hs]
  · intro hs
    unfold Middleware
    cases hst : config.Store with
    | none => exact absurd hst hs
    | some store => exact ⟨_, rfl⟩

theorem nil_store_panics_witness :
    Middleware tagEnv { demoConfig with Store := none } = Except.error "session: nil store" ∧
    ∃ mw, Middleware tagEnv demoConfig = Except.ok mw :=
  ⟨(nil_store_panics tagEnv { demoConfig with Store := none }).1 rfl,
   (nil_store_panics tagEnv demoConfig).2 (by simp [demoConfig])⟩

/-- C13, as stated, fails: a configuration with a negative entropy byte count and a store is
accepted; construction yields the middleware, and the entropy in use is 16 bytes. -/
theorem negative_entropy_is_accepted :
    ({ demoConfig with Entropy := -5 } : Config).Entropy < 0 ∧
    (∃ mw, Middleware tagEnv { demoConfig with Entropy := -5 } = Except.ok mw) ∧
    entropy { demoConfig with Entropy := -5 } = 16 :=
  ⟨by decide, ⟨_, rfl⟩, by decide⟩

/-- C13, amended: an entropy byte count that is zero or negative is not an error; with a store
configured, construction yields the middleware, which mints its ids from 16 random bytes. -/
theorem nonpositive_entropy_defaults (env : Env) (config : Config) (store : Store)
    (hs : config.Store = some store) (he : config.Entropy ≤ 0) :
    (∃ mw, Middleware env config = Except.ok mw) ∧
    entropy config = 16 ∧
    generateID env config = EncodeToString (randomBytes env 16) := by
  have hent : entropy config = 16 := by
    unfold entropy
    rw [if_pos he]
  refine ⟨?_, hent, ?_⟩
  · unfold Middleware
    rw [hs]
    exact ⟨_, rfl⟩
  · unfold generateID
    rw [hent]
    rfl

theorem nonpositive_entropy_defaults_witness :
    (∃ mw, Middleware tagEnv { demoConfig with Entropy := -5 } = Except.ok mw) ∧
    entropy { demoConfig with Entropy := -5 } = 16 ∧
    generateID tagEnv { demoConfig with Entropy := -5 }
      = EncodeToString (randomBytes tagEnv 16) :=
  nonpositive_entropy_defaults tagEnv { demoConfig with Entropy := -5 } demoStore rfl
    (by decide)

/-- C14 (context slot round trip): `Get(Set(ctx, s))` is `s`, and `Get` on a context in which
no session was attached is nil. -/
theorem context_round_trip (ctx : Context) (s : SessionPtr) :
    Get (Set ctx s) = s ∧
    ((∀ e ∈ ctx, e.1 ≠ CtxKey.sessionKey) → Get ctx = none) := by
  constructor
  · simp [Get, Set]
  · intro hno
    have hnone : ctx.find? (fun e => decide (e.1 = CtxKey.sessionKey)) = none := by
      rw [List.find?_eq_none]
      intro e he
      simpa using hno e he
    simp [Get, hnone]

theorem context_round_trip_witness :
    Get (Set [(CtxKey.other 1, CtxVal.other (Value.str "x"))] (some 3)) = some 3 ∧
    Get [(CtxKey.other 1, CtxVal.other (Value.str "x"))] = none :=
  ⟨(context_round_trip [(CtxKey.other 1, CtxVal.other (Value.str "x"))] (some 3)).1,
   (context_round_trip [(CtxKey.other 1, CtxVal.other (Value.str "x"))] none).2 (by decide)⟩


/-! ## Claims on the expiring store -/

theorem memory.sweeps_cons_live (e : String × memory.Entry) (rest : memory.Table)
    (times : List Int) (hlive : ∀ x ∈ times, x < e.2.expiresAt) :
    memory.sweeps (e :: rest) times = e :: memory.sweeps rest times := by
  induction times generalizing rest with
  | nil => rfl
  | cons x xs ih =>
    have hx : x < e.2.expiresAt := hlive x (List.mem_cons_self x xs)
    have hstep : memory.sweep (e :: rest) x = e :: memory.sweep rest x := by
      unfold memory.sweep
      rw [List.filter_cons_of_pos]
      simp only [memory.Entry.expired, Bool.not_eq_true', decide_eq_false_iff_not]
      omega
    show memory.sweeps (memory.sweep (e :: rest) x) xs = e :: memory.sweeps (memory.sweep rest x) xs
    rw [hstep]
    exact ih (memory.sweep rest x) (fun y hy => hlive y (List.mem_cons_of_mem x hy))

theorem memory.mem_of_mem_sweeps (s : memory.Table) (times : List Int)
    (e : String × memory.Entry) (he : e ∈ memory.sweeps s times) : e ∈ s := by
  induction times generalizing s with
  | nil => exact he
  | cons x xs ih =>
    have hmem : e ∈ memory.sweep s x := ih (memory.sweep s x) he
    exact (List.mem_filter.1 hmem).1

theorem memory.Get_of_head (e : memory.Entry) (rest : memory.Table) (now : Int) (id : String) :
    memory.Get ((id, e) :: rest) now id =
      if e.expired now then (none, some memory.errNotFound) else (some e.value, none) := by
  simp [memory.Get]

theorem memory.Get_of_all_expired (s : memory.Table) (now : Int) (id : String)
    (hexp : ∀ e ∈ s, e.1 = id → e.2.expired now = true) :
    memory.Get s now id = (none, some memory.errNotFound) := by
  unfold memory.Get
  cases hfind : s.find? (fun e => decide (e.1 = id)) with
  | none => rfl
  | some e =>
    have hmem : e ∈ s := List.mem_of_find?_eq_some hfind
    have hkey : e.1 = id := by
      have := List.find?_some hfind
      simpa using this
    simp [hexp e hmem hkey]

/-- The scenario of the store test, with a sweeper pass every 10ms: an entry set with a ttl of
1ms is not found 5ms later, nor 20ms later after two passes; an entry set with a ttl of 1s is
returned at once; after `Del` it is not found. -/
theorem memory.test_scenario :
    memory.Get (memory.Set [] 0 "a" (asciiBytes "test") 1000000).1 5000000 "a"
      = (none, some memory.errNotFound) ∧
    memory.Get (memory.sweeps (memory.Set [] 0 "a" (asciiBytes "test") 1000000).1
      [10000000, 20000000]) 20000000 "a" = (none, some memory.errNotFound) ∧
    memory.Get (memory.Set [] 0 "a" (asciiBytes "test") 1000000000).1 0 "a"
      = (some (asciiBytes "test"), none) ∧
    memory.Get (memory.Del (memory.Set [] 0 "a" (asciiBytes "test") 1000000000).1 "a").1 0 "a"
      = (none, some memory.errNotFound) := by
  decide

/-- C15 (store expiration): after `Set(id, payload, T)` at time `t0`, and whatever sweeper
passes ran up to the time of the read, a `Get(id)` at elapsed time `t < T` returns exactly the
payload and no error, and a `Get(id)` at elapsed time `t ≥ T` returns a nil payload and the
not-found error. -/
theorem store_expiration (s : memory.Table) (t0 : Int) (id : String) (payload : Bytes)
    (T t : Int) (times : List Int) (hpast : ∀ x ∈ times, x ≤ t0 + t) :
    (t < T →
      memory.Get (memory.sweeps (memory.Set s t0 id payload T).1 times) (t0 + t) id
        = (some payload, none)) ∧
    (T ≤ t →
      memory.Get (memory.sweeps (memory.Set s t0 id payload T).1 times) (t0 + t) id
        = (none, some memory.errNotFound)) := by
  constructor
  · intro ht
    have hlive : ∀ x ∈ times,
        x < (id, ({ value := payload, expiresAt := t0 + T } : memory.Entry)).2.expiresAt := by
      intro x hx
      have := hpast x hx
      show x < t0 + T
      omega
    show memory.Get (memory.sweeps ((id, { value := payload, expiresAt := t0 + T }) :: _) times)
      (t0 + t) id = _
    rw [memory.sweeps_cons_live _ _ times hlive, memory.Get_of_head]
    have hnot : ¬ t0 + t ≥ t0 + T := by omega
    simp [memory.Entry.expired, hnot]
  · intro ht
    apply memory.Get_of_all_expired
    intro e he hkey
    have hmem := memory.mem_of_mem_sweeps _ times e he
    have hcases : e = (id, { value := payload, expiresAt := t0 + T }) ∨
        e ∈ s.filter (fun e => decide (e.1 ≠ id)) := by
      simpa [memory.Set] using hmem
    rcases hcases with heq | hrest
    · rw [heq]
      simp only [memory.Entry.expired, decide_eq_true_eq]
      omega
    · have hne := (List.mem_filter.1 hrest).2
      simp at hne
      exact absurd hkey hne

theorem store_expiration_witness :
    memory.Get (memory.sweeps (memory.Set demoTable 10 "a" (asciiBytes "test") 5).1 [11, 12])
        (10 + 3) "a" = (some (asciiBytes "test"), none) ∧
    memory.Get (memory.sweeps (memory.Set demoTable 10 "a" (asciiBytes "test") 5).1 [11, 15])
        (10 + 5) "a" = (none, some memory.errNotFound) ∧
    memory.Get (memory.sweeps (memory.Set demoTable 10 "a" (asciiBytes "test") 0).1 [])
        (10 + 0) "a" = (none, some memory.errNotFound) :=
  ⟨(store_expiration demoTable 10 "a" (asciiBytes "test") 5 3 [11, 12] (by decide)).1
     (by decide),
   (store_expiration demoTable 10 "a" (asciiBytes "test") 5 5 [11, 15] (by decide)).2
     (by decide),
   (store_expiration demoTable 10 "a" (asciiBytes "test") 0 0 [] (by decide)).2
     (by decide)⟩

/-- C16 (store delete): after `Del(id)` a `Get(id)` returns the not-found error; `Del` returns no
error; deleting an identifier that is not present leaves the store as it was; and deleting
twice leaves the store as deleting once does. -/
theorem store_delete (s : memory.Table) (now : Int) (id : String) :
    memory.Get (memory.Del s id).1 now id = (none, some memory.errNotFound) ∧
    (memory.Del s id).2 = none ∧
    ((∀ e ∈ s, e.1 ≠ id) → memory.Del s id = (s, none)) ∧
    memory.Del (memory.Del s id).1 id = memory.Del s id := by
  refine ⟨?_, rfl, ?_, ?_⟩
  · apply memory.Get_of_all_expired
    intro e he hkey
    have hne := (List.mem_filter.1 he).2
    simp at hne
    exact absurd hkey hne
  · intro habsent
    have hfilter : s.filter (fun e => decide (e.1 ≠ id)) = s := by
      rw [List.filter_eq_self]
      intro e he
      simpa using habsent e he
    show (s.filter (fun e => decide (e.1 ≠ id)), (none : Option String)) = (s, none)
    rw [hfilter]
  · simp [memory.Del, List.filter_filter]

theorem store_delete_witness :
    memory.Del demoTable "a" = (demoTable, none) :=
  (store_delete demoTable 0 "a").2.2.1 (by decide)


/-! ## Lemmas on base64 and on map updates -/

theorem encodeURLChars_length (b : Bytes) :
    (encodeURLChars b).length = 4 * ((b.length + 2) / 3) := by
  induction b using encodeURLChars.induct with
  | case1 => rfl
  | case2 a => simp [encodeURLChars]
  | case3 a b => simp [encodeURLChars]
  | case4 a b c rest ih =>
    simp only [encodeURLChars, List.length_cons, ih]
    omega

theorem encodeURLChar_mem (n : Nat) : encodeURLChar n ∈ encodeURL := by
  have hlt : n % 64 < encodeURL.length := by
    have hlen : encodeURL.length = 64 := by decide
    rw [hlen]
    exact Nat.mod_lt n (by decide)
  unfold encodeURLChar
  rw [List.getD_eq_getElem _ _ hlt]
  exact List.getElem_mem hlt

theorem encodeURLChars_urlSafe (b : Bytes) :
    ∀ c ∈ encodeURLChars b, c ∈ encodeURL ∨ c = '=' := by
  induction b using encodeURLChars.induct with
  | case1 => simp [encodeURLChars]
  | case2 a =>
    intro c hc
    simp only [encodeURLChars, List.mem_cons, List.mem_singleton, List.not_mem_nil,
      or_false] at hc
    rcases hc with h | h | h | h
    · exact Or.inl (h ▸ encodeURLChar_mem _)
    · exact Or.inl (h ▸ encodeURLChar_mem _)
    · exact Or.inr h
    · exact Or.inr h
  | case3 a b =>
    intro c hc
    simp only [encodeURLChars, List.mem_cons, List.mem_singleton, List.not_mem_nil,
      or_false] at hc
    rcases hc with h | h | h | h
    · exact Or.inl (h ▸ encodeURLChar_mem _)
    · exact Or.inl (h ▸ encodeURLChar_mem _)
    · exact Or.inl (h ▸ encodeURLChar_mem _)
    · exact Or.inr h
  | case4 a b c rest ih =>
    intro x hx
    simp only [encodeURLChars, List.mem_cons] at hx
    rcases hx with h | h | h | h | h
    · exact Or.inl (h ▸ encodeURLChar_mem _)
    · exact Or.inl (h ▸ encodeURLChar_mem _)
    · exact Or.inl (h ▸ encodeURLChar_mem _)
    · exact Or.inl (h ▸ encodeURLChar_mem _)
    · exact ih x h

theorem encodeURLChar_eq (n : Nat) : encodeURLChar n = urlSafeChar (n % 64) := by
  have htable : ∀ m, m < 64 → encodeURL.getD m 'A' = urlSafeChar m := by decide
  exact htable (n % 64) (Nat.mod_lt n (by decide))

theorem sextets_three_bytes (a b c : Nat) (tail : List Nat) :
    sextets (byteBits a ++ (byteBits b ++ (byteBits c ++ tail))) =
      bitsValue [a / 128 % 2, a / 64 % 2, a / 32 % 2, a / 16 % 2, a / 8 % 2, a / 4 % 2] ::
      bitsValue [a / 2 % 2, a % 2, b / 128 % 2, b / 64 % 2, b / 32 % 2, b / 16 % 2] ::
      bitsValue [b / 8 % 2, b / 4 % 2, b / 2 % 2, b % 2, c / 128 % 2, c / 64 % 2] ::
      bitsValue [c / 32 % 2, c / 16 % 2, c / 8 % 2, c / 4 % 2, c / 2 % 2, c % 2] ::
      sextets tail := by
  simp [byteBits, sextets]

theorem bitsValue_six (b0 b1 b2 b3 b4 b5 : Nat) :
    bitsValue [b0, b1, b2, b3, b4, b5] = 32 * b0 + 16 * b1 + 8 * b2 + 4 * b3 + 2 * b4 + b5 := by
  simp only [bitsValue, List.foldl]
  omega

theorem base64urlBody_one (a : Nat) (ha : a < 256) :
    base64urlBody [a] = [encodeURLChar (a / 4), encodeURLChar ((a % 4) * 16)] := by
  have h1 : bitsValue [a / 128 % 2, a / 64 % 2, a / 32 % 2, a / 16 % 2, a / 8 % 2, a / 4 % 2]
      = (a / 4) % 64 := by
    rw [bitsValue_six]
    omega
  have h2 : bitsValue [a / 2 % 2, a % 2, 0, 0, 0, 0] = ((a % 4) * 16) % 64 := by
    rw [bitsValue_six]
    omega
  simp only [base64urlBody, List.flatMap_cons, List.flatMap_nil, List.append_nil, byteBits,
    sextets, List.length_cons, List.length_nil, List.replicate, List.cons_append,
    List.nil_append, List.map_cons, List.map_nil, encodeURLChar_eq]
  rw [h1, h2]

theorem base64urlBody_two (a b : Nat) (ha : a < 256) (hb : b < 256) :
    base64urlBody [a, b] =
      [encodeURLChar (a / 4), encodeURLChar ((a % 4) * 16 + b / 16),
       encodeURLChar ((b % 16) * 4)] := by
  have h1 : bitsValue [a / 128 % 2, a / 64 % 2, a / 32 % 2, a / 16 % 2, a / 8 % 2, a / 4 % 2]
      = (a / 4) % 64 := by
    rw [bitsValue_six]
    omega
  have h2 : bitsValue [a / 2 % 2, a % 2, b / 128 % 2, b / 64 % 2, b / 32 % 2, b / 16 % 2]
      = ((a % 4) * 16 + b / 16) % 64 := by
    rw [bitsValue_six]
    omega
  have h3 : bitsValue [b / 8 % 2, b / 4 % 2, b / 2 % 2, b % 2, 0, 0]
      = ((b % 16) * 4) % 64 := by
    rw [bitsValue_six]
    omega
  simp only [base64urlBody, List.flatMap_cons, List.flatMap_nil, List.append_nil, byteBits,
    sextets, List.length_cons, List.length_nil, List.replicate, List.cons_append,
    List.nil_append, List.map_cons, List.map_nil, encodeURLChar_eq]
  rw [h1, h2, h3]

theorem base64urlBody_three (a b c : Nat) (rest : Bytes)
    (ha : a < 256) (hb : b < 256) (hc : c < 256) :
    base64urlBody (a :: b :: c :: rest) =
      encodeURLChar (a / 4) :: encodeURLChar ((a % 4) * 16 + b / 16) ::
        encodeURLChar ((b % 16) * 4 + c / 64) :: encodeURLChar (c % 64) ::
        base64urlBody rest := by
  have h1 : bitsValue [a / 128 % 2, a / 64 % 2, a / 32 % 2, a / 16 % 2, a / 8 % 2, a / 4 % 2]
      = (a / 4) % 64 := by
    rw [bitsValue_six]
    omega
  have h2 : bitsValue [a / 2 % 2, a % 2, b / 128 % 2, b / 64 % 2, b / 32 % 2, b / 16 % 2]
      = ((a % 4) * 16 + b / 16) % 64 := by
    rw [bitsValue_six]
    omega
  have h3 : bitsValue [b / 8 % 2, b / 4 % 2, b / 2 % 2, b % 2, c / 128 % 2, c / 64 % 2]
      = ((b % 16) * 4 + c / 64) % 64 := by
    rw [bitsValue_six]
    omega
  have h4 : bitsValue [c / 32 % 2, c / 16 % 2, c / 8 % 2, c / 4 % 2, c / 2 % 2, c % 2]
      = (c % 64) % 64 := by
    rw [bitsValue_six]
    omega
  have hflat : (a :: b :: c :: rest).flatMap byteBits
      = byteBits a ++ (byteBits b ++ (byteBits c ++ rest.flatMap byteBits)) := by
    simp [List.flatMap_cons]
  unfold base64urlBody
  rw [hflat, sextets_three_bytes]
  simp only [List.map_cons, encodeURLChar_eq]
  rw [h1, h2, h3, h4]

/-- The encoder computes the base64url encoding of RFC 4648 on every byte string. -/
theorem encodeURLChars_eq_base64url (b : Bytes) (hb : ∀ x ∈ b, x < 256) :
    encodeURLChars b = base64url b := by
  induction b using encodeURLChars.induct with
  | case1 => rfl
  | case2 a =>
    have ha : a < 256 := hb a (by simp)
    unfold base64url
    rw [base64urlBody_one a ha]
    rfl
  | case3 a b =>
    have ha : a < 256 := hb a (by simp)
    have hb2 : b < 256 := hb b (by simp)
    unfold base64url
    rw [base64urlBody_two a b ha hb2]
    rfl
  | case4 a b c rest ih =>
    have ha : a < 256 := hb a (by simp)
    have hb2 : b < 256 := hb b (by simp)
    have hc : c < 256 := hb c (by simp)
    have hrest : ∀ x ∈ rest, x < 256 := fun x hx => hb x (by simp [hx])
    have hpad : (4 - (base64urlBody rest).length.succ.succ.succ.succ % 4) % 4
        = (4 - (base64urlBody rest).length % 4) % 4 := by
      omega
    unfold base64url
    rw [base64urlBody_three a b c rest ha hb2 hc]
    simp only [encodeURLChars, List.length_cons, List.cons_append, ih hrest]
    unfold base64url
    rw [hpad]

theorem randomBytes_lt (env : Env) (n : Nat) : ∀ x ∈ randomBytes env n, x < 256 := by
  intro x hx
  simp only [randomBytes, List.mem_map] at hx
  obtain ⟨i, _, hi⟩ := hx
  rw [← hi]
  exact Nat.mod_lt _ (by decide)

theorem randomBytes_getElem? (env : Env) (n i : Nat) (hi : i < n) :
    (randomBytes env n)[i]? = some (env.rand i % 256) := by
  simp [randomBytes, List.getElem?_map, List.getElem?_range hi]

theorem encodeURL_urlSafe :
    ∀ c ∈ encodeURL, c.isAlphanum = true ∨ c = '-' ∨ c = '_' := by
  decide

/-- The encoder agrees with the test vectors of RFC 4648. -/
theorem EncodeToString_vectors :
    EncodeToString (asciiBytes "") = "" ∧
    EncodeToString (asciiBytes "f") = "Zg==" ∧
    EncodeToString (asciiBytes "fo") = "Zm8=" ∧
    EncodeToString (asciiBytes "foo") = "Zm9v" ∧
    EncodeToString (asciiBytes "foob") = "Zm9vYg==" ∧
    EncodeToString (asciiBytes "fooba") = "Zm9vYmE=" ∧
    EncodeToString (asciiBytes "foobar") = "Zm9vYmFy" ∧
    EncodeToString [251, 255, 190] = "-_--" := by
  decide

theorem SessOp.run_modified (op : SessOp) (sess : Session) (hm : sess.modified = true) :
    (op.run sess).modified = true := by
  cases op with
  | Get key => simpa [SessOp.run, Session.Get_snd] using hm
  | Set key value =>
    simp only [SessOp.run]
    cases hk : key.hashable
    · rw [Session.Set_unhashable sess key value hk]
    · rw [Session.Set_hashable sess key value hk]
  | Del key =>
    simp only [SessOp.run]
    cases hd : sess.d with
    | none =>
      rw [Session.Del_nil sess key hd]
      exact hm
    | some m =>
      cases hk : key.hashable
      · rw [Session.Del_unhashable sess key m hd hk]
      · rw [Session.Del_hashable sess key m hd hk]
  | SetUserID userID => simpa [SessOp.run, Session.SetUserID] using hm

theorem runOps_modified (ops : List SessOp) (sess : Session) (hm : sess.modified = true) :
    (runOps ops sess).modified = true := by
  induction ops generalizing sess with
  | nil => exact hm
  | cons op rest ih =>
    rw [runOps_cons]
    exact ih (op.run sess) (SessOp.run_modified op sess hm)


/-! ## Claims on identifiers, generation and the dirty flag -/

/-- C17 (identifier immutability): after any sequence of `Get`, `Set`, `Del` and `SetUserID`
calls the id and the `isNew` flag of the session are what they were before. -/
theorem identifier_immutable (ops : List SessOp) (sess : Session) :
    (runOps ops sess).id = sess.id ∧ (runOps ops sess).isNew = sess.isNew :=
  runOps_id_isNew ops sess

/-- C18 (identifier generation and defaults): a generated id is the base64url encoding of
RFC 4648 of exactly N bytes drawn from the random source, N being `config.Entropy` when positive
and 16 when zero; it consists of letters, digits, `-`, `_` and padding, is not empty, and has
length `4 * ceil(N/3)`, which is 24 by default; an empty configured cookie name defaults to
`sess`. -/
theorem identifier_generation (env : Env) (config : Config) :
    (generateID env config).toList = base64url (randomBytes env (entropy config).toNat) ∧
    (∀ i, i < (entropy config).toNat →
      (randomBytes env (entropy config).toNat)[i]? = some (env.rand i % 256)) ∧
    (randomBytes env (entropy config).toNat).length = (entropy config).toNat ∧
    (0 < config.Entropy → entropy config = config.Entropy) ∧
    (config.Entropy = 0 → entropy config = 16) ∧
    (∀ c ∈ (generateID env config).toList,
      c.isAlphanum = true ∨ c = '-' ∨ c = '_' ∨ c = '=') ∧
    generateID env config ≠ "" ∧
    (generateID env config).length = 4 * (((entropy config).toNat + 2) / 3) ∧
    (config.Entropy = 0 → (generateID env config).length = 24) ∧
    (config.Name = "" → sessName config = "sess") := by
  have hlen : (generateID env config).length = 4 * (((entropy config).toNat + 2) / 3) := by
    unfold generateID EncodeToString
    rw [String.length_mk, encodeURLChars_length, randomBytes_length]
  have hzero : config.Entropy = 0 → entropy config = 16 := by
    intro h0
    unfold entropy
    rw [if_pos (by omega)]
  refine ⟨?_, ?_, randomBytes_length env _, ?_, hzero, ?_, generateID_ne_empty env config,
    hlen, ?_, ?_⟩
  · show encodeURLChars (randomBytes env (entropy config).toNat) = _
    exact encodeURLChars_eq_base64url _ (randomBytes_lt env _)
  · intro i hi
    exact randomBytes_getElem? env _ i hi
  · intro hpos
    unfold entropy
    rw [if_neg (by omega)]
  · intro c hc
    rcases encodeURLChars_urlSafe _ c hc with hmem | hpad
    · rcases encodeURL_urlSafe c hmem with h | h | h
      · exact Or.inl h
      · exact Or.inr (Or.inl h)
      · exact Or.inr (Or.inr (Or.inl h))
    · exact Or.inr (Or.inr (Or.inr hpad))
  · intro h0
    rw [hlen, hzero h0]
    rfl
  · intro hname
    unfold sessName
    rw [if_pos ((len_eq_zero_iff config.Name).2 hname)]

theorem identifier_generation_witness :
    (generateID tagEnv { demoConfig with Entropy := 4 }).toList = base64url [3, 10, 17, 24] ∧
    generateID tagEnv { demoConfig with Entropy := 4 } = "AwoRGA==" ∧
    entropy { demoConfig with Entropy := 4 } = 4 ∧
    entropy demoConfig = 16 ∧
    (generateID tagEnv demoConfig).length = 24 ∧
    sessName demoConfig = "sess" :=
  ⟨(identifier_generation tagEnv { demoConfig with Entropy := 4 }).1,
   by decide,
   (identifier_generation tagEnv { demoConfig with Entropy := 4 }).2.2.2.1 (by decide),
   (identifier_generation tagEnv demoConfig).2.2.2.2.1 rfl,
   (identifier_generation tagEnv demoConfig).2.2.2.2.2.2.2.2.1 rfl,
   (identifier_generation tagEnv demoConfig).2.2.2.2.2.2.2.2.2 rfl⟩

/-- C19, as stated, fails: with a NaN as key a second `Set` adds an entry instead of
overwriting the first; with a slice as key `Del` on an existing map panics, and so does the
following `Get`, which therefore does not return nil. -/
theorem upsert_nan_or_unhashable_key :
    ((freshSession.Set Value.nan (Value.int 1)).1.Set Value.nan (Value.int 2)).1.d
      = some [(Value.nan, Value.int 2), (Value.nan, Value.int 1)] ∧
    (loadedSession.Del (Value.slice [1])).2 = true ∧
    ((loadedSession.Del (Value.slice [1])).1.Get (Value.slice [1])).1 = none := by
  decide

/-- C19, amended (upsert and delete touch only their key): for hashable keys `k` and `k2` with
`k != k2`, `Set(k, v)` returns normally, sets `modified`, leaves `Get(k2)` unchanged, keeps the
keys of the map pairwise unequal and, when `k` is equal to itself, makes `Get(k)` return `v`;
`Del(k)` returns normally, after it `Get(k)` returns nil and `Get(k2)` is unchanged, and the
keys stay pairwise unequal. -/
theorem upsert_delete_frame (sess : Session) (k k2 v : Value)
    (hk : k.hashable = true) (hk2 : k2.hashable = true) (hne : Value.goEq k k2 = false) :
    (sess.Set k v).2 = false ∧
    (sess.Set k v).1.modified = true ∧
    ((sess.Set k v).1.Get k2).1 = (sess.Get k2).1 ∧
    (k ≠ Value.nan → ((sess.Set k v).1.Get k).1 = some v) ∧
    (sess.keysUnique → (sess.Set k v).1.keysUnique) ∧
    (sess.Del k).2 = false ∧
    ((sess.Del k).1.Get k).1 = some Value.nil ∧
    ((sess.Del k).1.Get k2).1 = (sess.Get k2).1 ∧
    (sess.keysUnique → (sess.Del k).1.keysUnique) := by
  rw [Session.Set_hashable sess k v hk]
  refine ⟨rfl, rfl, ?_, ?_, ?_, ?_⟩
  · simp only [Session.Get, GoMap.index, hk2, if_true]
    rw [GoMap.lookup_cons_other _ k k2 v hne, GoMap.lookup_remove_other _ k k2 hne]
    cases hd : sess.d with
    | none => rfl
    | some m => simp [GoMap.index, hk2]
  · intro hn
    simp only [Session.Get, GoMap.index, hk, if_true]
    exact congrArg some (GoMap.lookup_cons_self _ k v hn)
  · intro huniq m hm
    have hm2 : (k, v) :: GoMap.remove (sess.d.getD []) k = m := Option.some.inj hm
    rw [← hm2]
    apply GoMap.cons_remove_pairwise
    cases hd : sess.d with
    | none => exact List.Pairwise.nil
    | some m0 => exact huniq m0 hd
  · cases hd : sess.d with
    | none =>
      rw [Session.Del_nil sess k hd]
      refine ⟨rfl, ?_, rfl, fun huniq => huniq⟩
      simp [Session.Get, hd]
    | some m0 =>
      rw [Session.Del_hashable sess k m0 hd hk]
      refine ⟨rfl, ?_, ?_, ?_⟩
      · simp only [Session.Get, GoMap.index, hk, if_true]
        exact congrArg some (GoMap.lookup_remove_self m0 k)
      · simp only [Session.Get, GoMap.index, hk2, if_true, hd]
        exact congrArg some (GoMap.lookup_remove_other m0 k k2 hne)
      · intro huniq m hm
        have hm2 : GoMap.remove m0 k = m := Option.some.inj hm
        rw [← hm2]
        exact GoMap.remove_pairwise m0 k (huniq m0 hd)

theorem upsert_delete_frame_witness :
    ((loadedSession.Set (Value.str "user") (Value.int 7)).1.Get (Value.str "lang")).1
      = (loadedSession.Get (Value.str "lang")).1 ∧
    ((loadedSession.Set (Value.str "user") (Value.int 7)).1.Get (Value.str "user")).1
      = some (Value.int 7) ∧
    ((loadedSession.Del (Value.str "user")).1.Get (Value.str "user")).1 = some Value.nil ∧
    ((loadedSession.Del (Value.str "user")).1.Get (Value.str "lang")).1
      = (loadedSession.Get (Value.str "lang")).1 :=
  ⟨(upsert_delete_frame loadedSession (Value.str "user") (Value.str "lang") (Value.int 7)
      rfl rfl (by decide)).2.2.1,
   (upsert_delete_frame loadedSession (Value.str "user") (Value.str "lang") (Value.int 7)
      rfl rfl (by decide)).2.2.2.1 (by decide),
   (upsert_delete_frame loadedSession (Value.str "user") (Value.str "lang") (Value.int 7)
      rfl rfl (by decide)).2.2.2.2.2.2.1,
   (upsert_delete_frame loadedSession (Value.str "user") (Value.str "lang") (Value.int 7)
      rfl rfl (by decide)).2.2.2.2.2.2.2.1⟩

/-- C20 (the modified flag is monotone): once `modified` is true it stays true under every
method call and every sequence of calls, so the guard of the deferred save that skips a new,
unmodified session is false from then on. -/
theorem modified_monotone (sess : Session) (op : SessOp) (ops : List SessOp)
    (hm : sess.modified = true) :
    (op.run sess).modified = true ∧
    (runOps ops sess).modified = true ∧
    ((runOps ops sess).isNew && !(runOps ops sess).modified) = false := by
  have hops := runOps_modified ops sess hm
  refine ⟨SessOp.run_modified op sess hm, hops, ?_⟩
  rw [hops]
  simp

theorem modified_monotone_witness :
    ((SessOp.Del (Value.str "user")).run
      (freshSession.Set (Value.str "user") (Value.int 1)).1).modified = true ∧
    (runOps [SessOp.Del (Value.str "user"), SessOp.Get (Value.str "user"),
      SessOp.SetUserID (Value.int 9)]
      (freshSession.Set (Value.str "user") (Value.int 1)).1).modified = true :=
  ⟨(modified_monotone (freshSession.Set (Value.str "user") (Value.int 1)).1
      (SessOp.Del (Value.str "user")) [] (by decide)).1,
   (modified_monotone (freshSession.Set (Value.str "user") (Value.int 1)).1
      (SessOp.Get (Value.str "user"))
      [SessOp.Del (Value.str "user"), SessOp.Get (Value.str "user"),
        SessOp.SetUserID (Value.int 9)] (by decide)).2.1⟩


end session
